import Mathlib

/-!
Verification of the build-advisor AI-response pipeline of the dyerb repository:
the defensive JSON normalization (`parseResponse` and its helpers in
`src/services/claudeAnalysis.ts`), the domain validator (`validateResponse`),
the reference-data lookups (`src/data/d3Reference.ts`), and the recommendation
cache of the store (`generateBuildSuggestion` in `src/stores/auth.ts`).

The embedding models the JavaScript runtime values that flow through the
pipeline.  Parsed JSON is the inductive `Json`; the absent value `undefined`
produced by a failed property access is `Option Json`'s `none`; JavaScript
exceptions (`TypeError` on property access of `null`, iteration of a
non-iterable, calling a missing method) are the error side of `Except`.
JSON numbers are modelled as rationals, which represent every JSON numeral
exactly; the double-precision rounding of the host runtime and its float
formatting are below the granularity of every property proved here.
Prototype-chain property hits (for example a key named "toString") are outside
the model: lookups in the reference tables are plain association-list lookups.
-/

namespace Dyerb

/-- JavaScript values produced by `JSON.parse`: null, booleans, numbers,
strings, arrays and plain objects.  An object keeps its fields in insertion
order; `JSON.parse` overwrites the value in place when a key repeats, which
`insertField` below reproduces. -/
inductive Json where
  | null : Json
  | bool (b : Bool) : Json
  | num (q : ℚ) : Json
  | str (s : String) : Json
  | arr (xs : List Json) : Json
  | obj (kvs : List (String × Json)) : Json
deriving Repr

mutual

def Json.beq : Json → Json → Bool
  | .null, .null => true
  | .bool a, .bool b => a == b
  | .num a, .num b => a == b
  | .str a, .str b => a == b
  | .arr a, .arr b => Json.beqList a b
  | .obj a, .obj b => Json.beqFields a b
  | _, _ => false

def Json.beqList : List Json → List Json → Bool
  | [], [] => true
  | x :: xs, y :: ys => Json.beq x y && Json.beqList xs ys
  | _, _ => false

def Json.beqFields : List (String × Json) → List (String × Json) → Bool
  | [], [] => true
  | (ka, va) :: xs, (kb, vb) :: ys => ka == kb && Json.beq va vb && Json.beqFields xs ys
  | _, _ => false

end

mutual

theorem Json.beq_iff_eq : ∀ a b : Json, Json.beq a b = true ↔ a = b
  | .null, .null => by simp [Json.beq]
  | .bool _, .bool _ => by simp [Json.beq]
  | .num _, .num _ => by simp [Json.beq]
  | .str _, .str _ => by simp [Json.beq]
  | .arr x, .arr y => by simp [Json.beq, Json.beqList_iff_eq x y]
  | .obj x, .obj y => by simp [Json.beq, Json.beqFields_iff_eq x y]
  | .null, .bool _ | .null, .num _ | .null, .str _ | .null, .arr _ | .null, .obj _
  | .bool _, .null | .bool _, .num _ | .bool _, .str _ | .bool _, .arr _ | .bool _, .obj _
  | .num _, .null | .num _, .bool _ | .num _, .str _ | .num _, .arr _ | .num _, .obj _
  | .str _, .null | .str _, .bool _ | .str _, .num _ | .str _, .arr _ | .str _, .obj _
  | .arr _, .null | .arr _, .bool _ | .arr _, .num _ | .arr _, .str _ | .arr _, .obj _
  | .obj _, .null | .obj _, .bool _ | .obj _, .num _ | .obj _, .str _ | .obj _, .arr _ => by
      simp [Json.beq]

theorem Json.beqList_iff_eq : ∀ a b : List Json, Json.beqList a b = true ↔ a = b
  | [], [] => by simp [Json.beqList]
  | [], _ :: _ => by simp [Json.beqList]
  | _ :: _, [] => by simp [Json.beqList]
  | x :: xs, y :: ys => by
      simp [Json.beqList, Json.beq_iff_eq x y, Json.beqList_iff_eq xs ys]

theorem Json.beqFields_iff_eq : ∀ a b : List (String × Json), Json.beqFields a b = true ↔ a = b
  | [], [] => by simp [Json.beqFields]
  | [], _ :: _ => by simp [Json.beqFields]
  | _ :: _, [] => by simp [Json.beqFields]
  | (k₁, v₁) :: xs, (k₂, v₂) :: ys => by
      simp [Json.beqFields, Json.beq_iff_eq v₁ v₂, Json.beqFields_iff_eq xs ys, Prod.ext_iff,
        and_assoc]

end

instance : DecidableEq Json := fun a b =>
  decidable_of_iff (Json.beq a b = true) (Json.beq_iff_eq a b)

/-- Truthiness of a JavaScript value: `null`, `false`, `0` and the empty
string are falsy; every array and object is truthy. -/
def truthy : Json → Bool
  | .null => false
  | .bool b => b
  | .num q => !(q == 0)
  | .str s => !(s == "")
  | .arr _ => true
  | .obj _ => true

/-- Truthiness of a possibly-`undefined` value (`undefined` is falsy). -/
def truthyO : Option Json → Bool
  | none => false
  | some v => truthy v

/-- Property access `v[k]` on a value already known not to be `null` or
`undefined`: objects look the key up, every other receiver yields
`undefined`. -/
def getField : Json → String → Option Json
  | .obj kvs, k => (kvs.find? (fun p => p.1 == k)).map (·.2)
  | _, _ => none

/-- Property access `v.k` where `v` may be `null` (a `TypeError` in
JavaScript) or `undefined` (also a `TypeError`). -/
def getFieldE : Option Json → String → Except Unit (Option Json)
  | none, _ => .error ()
  | some .null, _ => .error ()
  | some v, k => .ok (getField v k)

/-- Evaluation of `x || d`: the left value when truthy, otherwise the
default. -/
def jsOr (v : Option Json) (d : Json) : Json :=
  match v with
  | some x => if truthy x then x else d
  | none => d

/-- The test `typeof v === 'object' && v` used by the normalizers; arrays
pass it, `null` fails it by falsiness. -/
def isObjectLike : Option Json → Bool
  | some (.obj _) => true
  | some (.arr _) => true
  | _ => false

/-- Decimal rendering of an integer, as JavaScript prints it. -/
def intToDecimal (n : ℤ) : String :=
  (if n < 0 then "-" else "") ++ Nat.repr n.natAbs

/-- Smallest power of ten the denominator divides, searched up to the given
bound, for rendering terminating decimals. -/
def decimalScale (den : ℕ) : ℕ → Option ℕ
  | 0 => none
  | b + 1 =>
    match decimalScale den b with
    | some k => some k
    | none => if 10 ^ b % den == 0 then some b else none

/-- Rendering of a JavaScript number.  Integers render exactly as the host
runtime does; a non-integral rational renders as its terminating decimal when
one exists.  (The shortest-round-trip float formatting of the runtime is
abstracted: no property proved below evaluates `String()` on a non-integral
number.) -/
def numToString (q : ℚ) : String :=
  if q.den = 1 then intToDecimal q.num
  else
    match decimalScale q.den 40 with
    | some k =>
      let scaled : ℕ := q.num.natAbs * (10 ^ k / q.den)
      let digits := Nat.repr scaled
      let digits := String.mk (List.replicate (k + 1 - digits.length) '0') ++ digits
      let ip := digits.take (digits.length - k)
      let fp := (digits.drop (digits.length - k)).data.reverse.dropWhile (· == '0')
      (if q.num < 0 then "-" else "") ++ ip ++
        (if fp.isEmpty then "" else "." ++ String.mk fp.reverse)
    | none => intToDecimal q.num ++ "/" ++ Nat.repr q.den

mutual

/-- String conversion `String(v)` of a JavaScript value.  Arrays join their
elements with commas (a `null` element joins as the empty string), plain
objects print as `[object Object]`. -/
def jsToString : Json → String
  | .null => "null"
  | .bool b => if b then "true" else "false"
  | .num q => numToString q
  | .str s => s
  | .arr xs => jsJoinList xs
  | .obj _ => "[object Object]"

def jsJoinList : List Json → String
  | [] => ""
  | [x] => if x = .null then "" else jsToString x
  | x :: y :: rest =>
    (if x = .null then "" else jsToString x) ++ "," ++ jsJoinList (y :: rest)

end

/-- ASCII lowering of a character, the fragment of `toLowerCase` exercised by
the reference data (which is ASCII throughout). -/
def lowerStr (s : String) : String :=
  String.mk (s.data.map Char.toLower)

/-- Whether the first list is a prefix of the second. -/
def listStartsWith : List Char → List Char → Bool
  | [], _ => true
  | _ :: _, [] => false
  | n :: ns, c :: cs => n == c && listStartsWith ns cs

/-- The `String.prototype.includes` test: the needle occurs contiguously in
the haystack. -/
def hasInfix : List Char → List Char → Bool
  | hay, needle =>
    if listStartsWith needle hay then true
    else
      match hay with
      | [] => false
      | _ :: t => hasInfix t needle

/-- The `includes` test on strings. -/
def strIncludes (s sub : String) : Bool :=
  hasInfix s.data sub.data

/-- The WhiteSpace and LineTerminator classes of the host runtime, as matched
by the regex class `\s` and trimmed by `String.prototype.trim`. -/
def jsWhitespace (c : Char) : Bool :=
  let n := c.toNat
  n == 32 || n == 9 || n == 10 || n == 13 || n == 11 || n == 12 ||
    n == 0xa0 || n == 0x1680 || (0x2000 ≤ n && n ≤ 0x200a) ||
    n == 0x2028 || n == 0x2029 || n == 0x202f || n == 0x205f || n == 0x3000 ||
    n == 0xfeff

/-- Both-ends trim over a character list. -/
def jsTrimList (l : List Char) : List Char :=
  ((l.dropWhile jsWhitespace).reverse.dropWhile jsWhitespace).reverse

/-- The `trim()` call of the host runtime. -/
def jsTrim (s : String) : String :=
  String.mk (jsTrimList s.data)

/-- The backquote character of a fenced code block. -/
def backquote : Char := Char.ofNat 96

/-- Splitting a character list at its first run of three backquotes: the part
before the fence and the part after it.  `none` when no fence occurs. -/
def splitTriple : List Char → Option (List Char × List Char)
  | [] => none
  | c :: cs =>
    if c = backquote ∧ cs.take 2 = [backquote, backquote] then some ([], cs.drop 2)
    else
      match splitTriple cs with
      | some (p, s) => some (c :: p, s)
      | none => none

/-- The fence-stripping prelude of `parseResponse`: `jsonStr` starts as
`content.trim()`; when the regex `/(three backquotes)(?:json)?\s*([\s\S]*?)(three backquotes)/`
matches, `jsonStr` becomes the captured group trimmed.  The regex match
succeeds exactly when a second backquote run follows the first; the optional
literal `json` and the greedy `\s*` cannot affect whether the lazy capture
reaches a closing fence, since the characters they consume are never
backquotes. -/
def extractJson (content : String) : String :=
  match splitTriple content.data with
  | some (_, rest) =>
    let rest1 := if listStartsWith "json".data rest then rest.drop 4 else rest
    let rest2 := rest1.dropWhile jsWhitespace
    match splitTriple rest2 with
    | some (cap, _) => String.mk (jsTrimList cap)
    | none => jsTrim content
  | none => jsTrim content

/-- The whitespace of the JSON grammar itself (narrower than `\s`). -/
def jsonWS (c : Char) : Bool :=
  c == ' ' || c == '\t' || c == '\n' || c == '\r'

/-- Value of a hexadecimal digit. -/
def hexVal (c : Char) : Option Nat :=
  if '0' ≤ c ∧ c ≤ '9' then some (c.toNat - 48)
  else if 'a' ≤ c ∧ c ≤ 'f' then some (c.toNat - 97 + 10)
  else if 'A' ≤ c ∧ c ≤ 'F' then some (c.toNat - 65 + 10)
  else none

/-- Body of a JSON string literal after its opening quote: the decoded
characters and the input following the closing quote.  Control characters
must be escaped; `\uXXXX` escapes decode UTF-16 code units, pairing
surrogates (an unpaired surrogate, unrepresentable in a Unicode scalar
string, decodes to U+FFFD). -/
def parseStringBody : Nat → List Char → Option (List Char × List Char)
  | 0, _ => none
  | _, [] => none
  | fuel + 1, c :: cs =>
    if c = '"' then some ([], cs)
    else if c = '\\' then
      match cs with
      | [] => none
      | e :: cs' =>
        let simple : Option Char :=
          if e = '"' then some '"'
          else if e = '\\' then some '\\'
          else if e = '/' then some '/'
          else if e = 'b' then some (Char.ofNat 8)
          else if e = 'f' then some (Char.ofNat 12)
          else if e = 'n' then some '\n'
          else if e = 'r' then some '\r'
          else if e = 't' then some '\t'
          else none
        match simple with
        | some d =>
          match parseStringBody fuel cs' with
          | some (s, r) => some (d :: s, r)
          | none => none
        | none =>
          if e = 'u' then
            match cs' with
            | h1 :: h2 :: h3 :: h4 :: cs'' =>
              match hexVal h1, hexVal h2, hexVal h3, hexVal h4 with
              | some a, some b, some c3, some d =>
                let u := ((a * 16 + b) * 16 + c3) * 16 + d
                if 0xd800 ≤ u ∧ u ≤ 0xdbff then
                  match cs'' with
                  | '\\' :: 'u' :: g1 :: g2 :: g3 :: g4 :: cs3 =>
                    match hexVal g1, hexVal g2, hexVal g3, hexVal g4 with
                    | some a2, some b2, some c2, some d2 =>
                      let v := ((a2 * 16 + b2) * 16 + c2) * 16 + d2
                      if 0xdc00 ≤ v ∧ v ≤ 0xdfff then
                        let cp := 0x10000 + (u - 0xd800) * 0x400 + (v - 0xdc00)
                        match parseStringBody fuel cs3 with
                        | some (s, r) => some (Char.ofNat cp :: s, r)
                        | none => none
                      else
                        match parseStringBody fuel cs3 with
                        | some (s, r) => some (Char.ofNat 0xfffd :: Char.ofNat v :: s, r)
                        | none => none
                    | _, _, _, _ => none
                  | _ =>
                    match parseStringBody fuel cs'' with
                    | some (s, r) => some (Char.ofNat 0xfffd :: s, r)
                    | none => none
                else if 0xdc00 ≤ u ∧ u ≤ 0xdfff then
                  match parseStringBody fuel cs'' with
                  | some (s, r) => some (Char.ofNat 0xfffd :: s, r)
                  | none => none
                else
                  match parseStringBody fuel cs'' with
                  | some (s, r) => some (Char.ofNat u :: s, r)
                  | none => none
              | _, _, _, _ => none
            | _ => none
          else none
    else if c.toNat < 0x20 then none
    else
      match parseStringBody fuel cs with
      | some (s, r) => some (c :: s, r)
      | none => none

/-- A nonempty run of decimal digits: its value, its length, and the rest. -/
def parseDigits : List Char → Option (Nat × Nat × List Char)
  | [] => none
  | c :: cs =>
    if '0' ≤ c ∧ c ≤ '9' then
      match parseDigits cs with
      | some (v, n, r) =>
        some ((c.toNat - 48) * 10 ^ n + v, n + 1, r)
      | none => some (c.toNat - 48, 1, cs)
    else none

/-- A JSON numeral per the `JSON.parse` grammar: optional minus, an integer
part with no leading zero, an optional fraction, an optional exponent.  The
exact rational value of the numeral is produced. -/
def parseNumber (cs : List Char) : Option (Json × List Char) :=
  let (neg, cs1) :=
    match cs with
    | '-' :: r => (true, r)
    | _ => (false, cs)
  let intPart : Option (Nat × List Char) :=
    match cs1 with
    | '0' :: r => some (0, r)
    | c :: _ =>
      if '1' ≤ c ∧ c ≤ '9' then (parseDigits cs1).map (fun (v, _, r) => (v, r))
      else none
    | [] => none
  match intPart with
  | none => none
  | some (ip, cs2) =>
    let fracPart : Option (Nat × Nat × List Char) :=
      match cs2 with
      | '.' :: r =>
        match parseDigits r with
        | some (v, n, r') => some (v, n, r')
        | none => none
      | _ => some (0, 0, cs2)
    match fracPart with
    | none => none
    | some (fv, fn, cs3) =>
      let expPart : Option (Int × List Char) :=
        match cs3 with
        | 'e' :: r | 'E' :: r =>
          let (eneg, r1) :=
            match r with
            | '+' :: r' => (false, r')
            | '-' :: r' => (true, r')
            | _ => (false, r)
          match parseDigits r1 with
          | some (v, _, r') => some (if eneg then -(v : ℤ) else (v : ℤ), r')
          | none => none
        | _ => some (0, cs3)
      match expPart with
      | none => none
      | some (ev, cs4) =>
        let mant : ℤ := (if neg then -1 else 1) * ((ip * 10 ^ fn + fv : ℕ) : ℤ)
        let e10 : ℤ := ev - fn
        let q : ℚ :=
          if 0 ≤ e10 then mkRat (mant * 10 ^ e10.toNat) 1
          else mkRat mant (10 ^ (-e10).toNat)
        some (.num q, cs4)

/-- Insertion of a parsed object member: a repeated key overwrites the value
at its original position, a new key appends. -/
def insertField (kvs : List (String × Json)) (k : String) (v : Json) :
    List (String × Json) :=
  match kvs with
  | [] => [(k, v)]
  | (k0, v0) :: rest =>
    if k0 = k then (k0, v) :: rest else (k0, v0) :: insertField rest k v

mutual

/-- A JSON value at the head of the input, by the `JSON.parse` grammar. -/
def jsonParseVal : Nat → List Char → Option (Json × List Char)
  | 0, _ => none
  | fuel + 1, cs =>
    match cs with
    | 'n' :: 'u' :: 'l' :: 'l' :: rest => some (.null, rest)
    | 't' :: 'r' :: 'u' :: 'e' :: rest => some (.bool true, rest)
    | 'f' :: 'a' :: 'l' :: 's' :: 'e' :: rest => some (.bool false, rest)
    | '"' :: rest => (parseStringBody (rest.length + 1) rest).map (fun (s, r) => (Json.str (String.mk s), r))
    | '[' :: rest =>
      let rest1 := rest.dropWhile jsonWS
      match rest1 with
      | ']' :: r => some (.arr [], r)
      | _ => jsonParseElems fuel rest []
    | '{' :: rest =>
      let rest1 := rest.dropWhile jsonWS
      match rest1 with
      | '}' :: r => some (.obj [], r)
      | _ => jsonParseMembers fuel rest []
    | _ => parseNumber cs

/-- The elements of a JSON array after its opening bracket. -/
def jsonParseElems : Nat → List Char → List Json → Option (Json × List Char)
  | 0, _, _ => none
  | fuel + 1, cs, acc =>
    match jsonParseVal fuel (cs.dropWhile jsonWS) with
    | none => none
    | some (v, r) =>
      match r.dropWhile jsonWS with
      | ',' :: r2 => jsonParseElems fuel r2 (v :: acc)
      | ']' :: r2 => some (.arr (v :: acc).reverse, r2)
      | _ => none

/-- The members of a JSON object after its opening brace; a repeated key
overwrites the earlier value in place, as the host runtime does. -/
def jsonParseMembers : Nat → List Char → List (String × Json) →
    Option (Json × List Char)
  | 0, _, _ => none
  | fuel + 1, cs, acc =>
    match cs.dropWhile jsonWS with
    | '"' :: rest =>
      match parseStringBody (rest.length + 1) rest with
      | none => none
      | some (k, r) =>
        match r.dropWhile jsonWS with
        | ':' :: r1 =>
          match jsonParseVal fuel (r1.dropWhile jsonWS) with
          | none => none
          | some (v, r2) =>
            let acc' := insertField acc (String.mk k) v
            match r2.dropWhile jsonWS with
            | ',' :: r3 => jsonParseMembers fuel r3 acc'
            | '}' :: r3 => some (.obj acc', r3)
            | _ => none
        | _ => none
    | _ => none

end

/-- Top-level `JSON.parse`: surrounding JSON whitespace is permitted, the
whole input must be consumed. -/
def jsonParse (s : String) : Option Json :=
  let cs := s.data.dropWhile jsonWS
  match jsonParseVal (2 * cs.length + 8) cs with
  | some (v, rest) => if rest.dropWhile jsonWS = [] then some v else none
  | none => none

/-- Slot/item footprint of a jewelry set (`SetSlotInfo` in `d3Reference.ts`). -/
structure SetSlotInfo where
  slots : List String
  items : List String
deriving Repr, DecidableEq

/-- One reference entry of the item-acquisition table: every field of the
TypeScript `Partial ItemAcquisition` record, absent fields as `none`. -/
structure ItemAcqRef where
  slot : Option String := none
  methods : Option (List String) := none
  primaryMethod : Option String := none
  estimatedTime : Option String := none
  bloodShardCost : Option ℚ := none
  deathsBreathCost : Option ℚ := none
  forgottenSoulCost : Option ℚ := none
  bountyMaterialsRequired : Option Bool := none
  craftingRecipeSource : Option String := none
  dropLocations : Option (List String) := none
  notes : Option String := none
deriving Repr, DecidableEq

/-- Per-class passive-skill names (`CLASS_PASSIVES` in `d3Reference.ts`). -/
def CLASS_PASSIVES : List (String × List String) := [
  ("barbarian",
   ["Pound of Flesh",
    "Ruthless",
    "Nerves of Steel",
    "Weapons Master",
    "Inspiring Presence",
    "Berserker Rage",
    "Bloodthirst",
    "Animosity",
    "Superstition",
    "Tough as Nails",
    "No Escape",
    "Relentless",
    "Brawler",
    "Juggernaut",
    "Unforgiving",
    "Boon of Bul-Kathos",
    "Earthen Might",
    "Sword and Board",
    "Rampage"]),
  ("crusader",
   ["Heavenly Strength",
    "Fervor",
    "Vigilant",
    "Righteousness",
    "Insurmountable",
    "Fanaticism",
    "Indestructible",
    "Holy Cause",
    "Wrathful",
    "Divine Fortress",
    "Lord Commander",
    "Hold Your Ground",
    "Long Arm of the Law",
    "Iron Maiden",
    "Renewal",
    "Finery",
    "Blunt",
    "Towering Shield"]),
  ("demon-hunter",
   ["Thrill of the Hunt",
    "Tactical Advantage",
    "Blood Vengeance",
    "Steady Aim",
    "Cull the Weak",
    "Night Stalker",
    "Brooding",
    "Hot Pursuit",
    "Archery",
    "Numbing Traps",
    "Perfectionist",
    "Custom Engineering",
    "Grenadier",
    "Sharpshooter",
    "Ballistics",
    "Leech",
    "Ambush",
    "Awareness",
    "Single Out"]),
  ("monk",
   ["Resolve",
    "Fleet Footed",
    "Exalted Soul",
    "Transcendence",
    "Chant of Resonance",
    "Seize the Initiative",
    "The Guardian\x27s Path",
    "Sixth Sense",
    "Determination",
    "Relentless Assault",
    "Beacon of Ytar",
    "Alacrity",
    "Harmony",
    "Combination Strike",
    "Near Death Experience",
    "Unity",
    "Momentum",
    "Mythic Rhythm"]),
  ("necromancer",
   ["Bone Prison",
    "Life from Death",
    "Fueled by Death",
    "Stand Alone",
    "Swift Harvesting",
    "Commander of the Dead",
    "Rigor Mortis",
    "Overwhelming Essence",
    "Dark Reaping",
    "Spreading Malediction",
    "Eternal Torment",
    "Final Service",
    "Rathma\x27s Shield",
    "Blood is Power",
    "Draw Life",
    "Aberrant Animator",
    "Blood for Blood",
    "Extended Servitude",
    "Grisly Tribute"]),
  ("witch-doctor",
   ["Jungle Fortitude",
    "Circle of Life",
    "Spiritual Attunement",
    "Gruesome Feast",
    "Blood Ritual",
    "Bad Medicine",
    "Zombie Handler",
    "Pierce the Veil",
    "Spirit Vessel",
    "Fetish Sycophants",
    "Rush of Essence",
    "Vision Quest",
    "Fierce Loyalty",
    "Grave Injustice",
    "Tribal Rites",
    "Confidence Ritual",
    "Creeping Death",
    "Physical Attunement",
    "Midnight Feast",
    "Swampland Attunement"]),
  ("wizard",
   ["Power Hungry",
    "Blur",
    "Evocation",
    "Glass Cannon",
    "Prodigy",
    "Astral Presence",
    "Illusionist",
    "Cold Blooded",
    "Conflagration",
    "Paralysis",
    "Galvanizing Ward",
    "Temporal Flux",
    "Dominance",
    "Arcane Dynamo",
    "Unwavering Will",
    "Audacity",
    "Elemental Exposure",
    "Unstable Anomaly"])
]

/-- Occupied-slot and item lists of the multi-slot jewelry sets
(`JEWELRY_SETS` in `d3Reference.ts`). -/
def JEWELRY_SETS : List (String × SetSlotInfo) := [
  ("Focus and Restraint", ⟨["leftFinger", "rightFinger"], ["Focus", "Restraint"]⟩),
  ("Endless Walk", ⟨["neck", "leftFinger"], ["The Traveler\x27s Pledge", "The Compass Rose"]⟩),
  ("Bastions of Will", ⟨["leftFinger", "rightFinger"], ["Focus", "Restraint"]⟩)
]

/-- Set bonus text by piece tier (`SET_BONUSES` in `d3Reference.ts`); each
tier list is in the ascending numeric key order that `Object.entries`
produces for integer-like keys. -/
def SET_BONUSES : List (String × List (ℕ × String)) := [
  ("Grace of Inarius",
   [(2, "Bone Armor damage is increased by 1000%"),
    (4, "Bone Armor grants an additional 3% damage reduction per enemy hit"),
    (6, "Bone Armor also activates a swirling tornado of bone, dealing 1000% weapon damage to all nearby enemies and increasing the damage they take from the Necromancer by 10,000%")]),
  ("Trag\x27Oul\x27s Avatar",
   [(2, "Blood Rush gains the effect of every rune"),
    (4, "While at full Life, your healing from skills is added to your maximum Life for 45 seconds, up to 100% more"),
    (6, "Your Life-spending abilities deal 10,000% increased damage and your healing from skills is increased by 100%")]),
  ("Bones of Rathma",
   [(2, "Your Skeletal Mages gain the effect of the Gift of Death and Singularity runes"),
    (4, "You gain 1% damage reduction for 15 seconds each time your Skeletal Mages deal damage. Max 75 stacks"),
    (6, "Each active Skeletal Mage increases the damage of your Skeletal Mages and Army of the Dead by 1000%")]),
  ("Pestilence Master\x27s Shroud",
   [(2, "Each corpse you consume fires a Corpse Lance at a nearby enemy"),
    (4, "Each enemy you hit with Bone Spear, Corpse Lance, or Corpse Explosion reduces your damage taken by 2%, up to a maximum of 50%. Lasts 15 seconds"),
    (6, "Each corpse you consume grants you an Empowered Bone Spear charge that increases the damage of your next Bone Spear by 6000%. You can have up to 100 charges")]),
  ("Masquerade of the Burning Carnival",
   [(2, "Your Simulacrums no longer take damage, gains all runes, and its cooldown is refreshed when you die"),
    (4, "While you have a Simulacrum, damage taken is reduced by 50%. Damage dealt to you is split with your Simulacrums"),
    (6, "Bone Spear cast by you and your Simulacrums deals 10,000% increased damage")]),
  ("Captain Crimson\x27s Trimmings",
   [(2, "Regenerates 6000 Life per Second. Reduces cooldown of all skills by 20%"),
    (3, "Damage dealt is increased by your percentage of Cooldown Reduction. Damage taken is reduced by your percentage of Resource Cost Reduction")]),
  ("Sage\x27s Journey",
   [(2, "Gain Death\x27s Breath after killing an elite pack"),
    (3, "Double the amount of Death\x27s Breath that drop")]),
  ("Aughild\x27s Authority",
   [(2, "Reduces damage taken by 15%"),
    (3, "Reduces damage taken from elites by 30%. Increases damage dealt to elites by 30%")]),
  ("Born\x27s Command",
   [(2, "Reduces all cooldowns by 10%"),
    (3, "+15% Life. +20% bonus experience")]),
  ("Cain\x27s Destiny",
   [(2, "+50% bonus experience"),
    (3, "Attack Speed increased by 8%. 25% better chance of finding a Legendary item")]),
  ("Asheara\x27s Vestments",
   [(2, "+20% Life"),
    (3, "Attacks cause your followers to occasionally come to your aid")]),
  ("Guardian\x27s Jeopardy",
   [(2, "+250 Vitality"),
    (3, "+15% movement speed. Regenerates 8000 Life per Second")]),
  ("Demon\x27s Hide",
   [(2, "Reduces damage from melee attacks by 20%"),
    (3, "Reduces damage from ranged attacks by 20%")]),
  ("Wrath of the Wastes",
   [(2, "Increase the damage per second of Rend by 500% and its duration to 15 seconds"),
    (4, "During Whirlwind and for 3 seconds after, you gain 50% damage reduction and your applied Rends deal triple damage"),
    (6, "Whirlwind gains the effect of the Dust Devils rune and Whirlwind and its Dust Devils deal 10,000% increased damage")]),
  ("Immortal King\x27s Call",
   [(2, "Call of the Ancients last until they die"),
    (4, "Reduce the cooldown of Wrath of the Berserker and Call of the Ancients by 3 seconds for every 10 Fury you spend with an attack"),
    (6, "While both Wrath of the Berserker and Call of the Ancients are active, you deal 4000% increased damage")]),
  ("Horde of the Ninety Savages",
   [(2, "Double the effectiveness of shouts. Shouts instead grant 100% increased damage"),
    (4, "Each stack of Frenzy reduces damage taken by 6% and increases damage dealt by 10%"),
    (6, "Frenzy deals 10,000% increased damage")]),
  ("Might of the Earth",
   [(2, "Reduce the cooldown of Earthquake, Ground Stomp, Leap, and Avalanche by 1 second for every 30 Fury spent with an attack"),
    (4, "Leap causes an Earthquake when you land. Leap gains the effect of the Iron Impact rune and the rune effect and duration are increased by 150%"),
    (6, "Increase the damage of Earthquake, Avalanche, Leap, Ground Stomp, Ancient Spear, and Seismic Slam by 20,000%")]),
  ("Unhallowed Essence",
   [(2, "Your generators generate 2 additional Hatred and 1 Discipline"),
    (4, "Gain 60% damage reduction and deal 60% increased damage for 8 seconds if no enemy is within 10 yards of you"),
    (6, "Your generators, Multishot, and Vengeance deal 100% increased damage for every point of Discipline you have")]),
  ("Natalya\x27s Vengeance",
   [(2, "Reduce the cooldown of Rain of Vengeance by 4 seconds when you hit with a Hatred-generating attack or a Hatred-spending attack"),
    (4, "Rain of Vengeance deals 100% increased damage"),
    (6, "After casting Rain of Vengeance, deal 14,000% increased damage and take 60% reduced damage for 10 seconds")]),
  ("Marauder\x27s",
   [(2, "Companion calls all companion types to your side"),
    (4, "Sentries deal 400% increased damage and cast Elemental Arrow, Chakram, Impale, Multishot, and Cluster Arrow when you do"),
    (6, "Your primary skills, Elemental Arrow, Chakram, Impale, Multishot, Cluster Arrow, Companions, and Vengeance deal 12,000% increased damage for every active Sentry")]),
  ("Tal Rasha\x27s Elements",
   [(2, "Damaging enemies with Arcane, Cold, Fire or Lightning will cause a Meteor of the same damage type to fall from the sky. There is an 8 second cooldown for each damage type"),
    (4, "Arcane, Cold, Fire, and Lightning attacks each increase all of your resistances by 25% for 8 seconds"),
    (6, "Attacks increase your damage by 2000% for 8 seconds. Arcane, Cold, Fire, and Lightning attacks each add one stack. At 4 stacks, each element\x27s damage bonus is increased to 8000%")]),
  ("Firebird\x27s Finery",
   [(2, "When you die, a meteor falls from the sky and revives you. This effect has a 60 second cooldown"),
    (4, "Your damage is increased by 80% and damage taken reduced by 3% for each enemy that is Ignited. This effect can stack up to 20 times"),
    (6, "You gain 2500% increased damage while Ignite is applied to a target. Hitting an Ignited enemy with a non-channeling fire spell deals Ignite damage multiplied by Combustion stacks")]),
  ("Inna\x27s Mantra",
   [(2, "Increase the passive effect of your Mystic Ally and the damage of your Mystic Ally by 100%"),
    (4, "Gain the base effect of all four Mantras at all times. Your Mystic Allies are unkillable"),
    (6, "Gain the passive abilities of the five runed Mystic Allies at all times. Attacking enemies creates your runed Mystic Allies that deal 950% weapon damage on hit. Your Mystic Allies deal 9500% increased damage")]),
  ("Patterns of Justice",
   [(2, "Sweeping Wind gains the effect of every rune, and movement speed is increased by 5% for each stack of Sweeping Wind"),
    (4, "Tempest Rush gains the effect of the Flurry rune, and Tempest Rush and Flurry deal 15,000% increased damage"),
    (6, "Hitting with Tempest Rush while Sweeping Wind is active increases the size of Sweeping Wind and also increases all damage dealt by 15,000%")]),
  ("Aegis of Valor",
   [(2, "Attacking with Fist of the Heavens empowers you, allowing Heaven\x27s Fury to deal 100% increased damage for 5 seconds. Stacks up to 3 times multiplicatively"),
    (4, "Hitting with Fist of the Heavens generates 5 Wrath and reduces damage taken by 1% for 5 seconds. Stacks up to 50 times"),
    (6, "Increase the damage of Fist of the Heavens and Heaven\x27s Fury by 20,000%")]),
  ("Armor of Akkhan",
   [(2, "Reduce the cost of all abilities by 50% while Akarat\x27s Champion is active"),
    (4, "Reduce the cooldown of Akarat\x27s Champion by 50%"),
    (6, "While Akarat\x27s Champion is active, deal 2000% increased damage and take 50% less damage")]),
  ("Roland\x27s Legacy",
   [(2, "Every use of Shield Bash and Sweep Attack reduces the cooldowns of your Laws and Defensive Skills by 1 second"),
    (4, "Increase the damage of Shield Bash and Sweep Attack by 13,000%"),
    (6, "Every use of Shield Bash or Sweep Attack that hits an enemy grants 75% increased Attack Speed for 5 seconds. This effect stacks up to 5 times")]),
  ("Zunimassa\x27s Haunt",
   [(2, "Your Fetish Army lasts until they die and the cooldown of your Fetish Army is reduced by 80%"),
    (4, "You and your Fetishes take 3% reduced damage for every Fetish you have alive"),
    (6, "Enemies hit by your Mana spenders take 15,000% increased damage from your Pets for 8 seconds")]),
  ("Spirit of Arachyr",
   [(2, "Summon a permanent Spider Queen who leaves behind webs that deal 4000% weapon damage over 5 seconds and Slows enemies. The Spider Queen is commanded to move to where you cast your Corpse Spiders"),
    (4, "Hex gains the effect of the Toad of Hugeness rune. After Toad of Hugeness pulls in an enemy, you deal 50% increased damage for 15 seconds"),
    (6, "The damage of your creature skills is increased by 9000%. Creature skills are Corpse Spiders, Plague of Toads, Firebats, Locust Swarm, Hex, and Piranhas")])
]

set_option maxHeartbeats 1600000 in
/-- Farming metadata per item (`ITEM_ACQUISITION` in `d3Reference.ts`),
in source order; fields the source entry omits are `none`. -/
def ITEM_ACQUISITION : List (String × ItemAcqRef) := [
  ("Captain Crimson\x27s Trimmings",
   { slot := some "waist,legs,wrists",
     methods := some ["crafting"],
     primaryMethod := some "crafting",
     estimatedTime := some "quick",
     bountyMaterialsRequired := some true,
     craftingRecipeSource := some "Bounty cache (any act)",
     notes := some "Best 3pc set for CDR builds. Craft at Blacksmith after finding recipe." }),
  ("Sage\x27s Journey",
   { slot := some "head,hands,feet",
     methods := some ["crafting"],
     primaryMethod := some "crafting",
     estimatedTime := some "quick",
     bountyMaterialsRequired := some true,
     craftingRecipeSource := some "Bounty cache (any act)",
     notes := some "Double Death\x27s Breath drops. Great for farming builds." }),
  ("Aughild\x27s Authority",
   { slot := some "shoulders,torso,wrists",
     methods := some ["crafting"],
     primaryMethod := some "crafting",
     estimatedTime := some "quick",
     bountyMaterialsRequired := some true,
     craftingRecipeSource := some "Bounty cache (any act)",
     notes := some "30% elite damage bonus. Strong defensive option." }),
  ("Born\x27s Command",
   { slot := some "shoulders,torso,mainHand",
     methods := some ["crafting"],
     primaryMethod := some "crafting",
     estimatedTime := some "quick",
     bountyMaterialsRequired := some true,
     craftingRecipeSource := some "Bounty cache (any act)",
     notes := some "CDR and XP bonus. Good for leveling and speed builds." }),
  ("Cain\x27s Destiny",
   { slot := some "head,hands,legs",
     methods := some ["crafting"],
     primaryMethod := some "crafting",
     estimatedTime := some "quick",
     bountyMaterialsRequired := some true,
     craftingRecipeSource := some "Bounty cache (any act)",
     notes := some "XP and magic find bonus. Speed farming option." }),
  ("Scythe of the Cycle",
   { slot := some "mainHand",
     methods := some ["cube_upgrade", "kadala", "greater_rift"],
     primaryMethod := some "cube_upgrade",
     estimatedTime := some "medium",
     deathsBreathCost := some 25,
     bloodShardCost := some 75,
     notes := some "Core for secondary skill builds. Upgrade rare scythes at cube." }),
  ("Trag\x27Oul\x27s Corroded Fang",
   { slot := some "mainHand",
     methods := some ["cube_upgrade", "kadala", "greater_rift"],
     primaryMethod := some "cube_upgrade",
     estimatedTime := some "medium",
     deathsBreathCost := some 25,
     bloodShardCost := some 75,
     notes := some "Core for curse-based builds. Upgrade rare scythes." }),
  ("Reilena\x27s Shadowhook",
   { slot := some "mainHand",
     methods := some ["cube_upgrade", "kadala", "greater_rift"],
     primaryMethod := some "cube_upgrade",
     estimatedTime := some "medium",
     deathsBreathCost := some 25,
     bloodShardCost := some 75,
     notes := some "Essence stacking builds. Best in slot for Bone Spear." }),
  ("Nayr\x27s Black Death",
   { slot := some "mainHand",
     methods := some ["cube_upgrade", "kadala", "greater_rift"],
     primaryMethod := some "cube_upgrade",
     estimatedTime := some "medium",
     deathsBreathCost := some 25,
     bloodShardCost := some 75,
     notes := some "Poison skill builds. Stack different poison skills." }),
  ("Bloodtide Blade",
   { slot := some "mainHand",
     methods := some ["cube_upgrade", "kadala", "greater_rift"],
     primaryMethod := some "cube_upgrade",
     estimatedTime := some "medium",
     deathsBreathCost := some 25,
     bloodShardCost := some 75,
     notes := some "Death Nova builds. Scales with enemy density." }),
  ("Funerary Pick",
   { slot := some "mainHand",
     methods := some ["cube_upgrade", "kadala", "greater_rift"],
     primaryMethod := some "cube_upgrade",
     estimatedTime := some "medium",
     deathsBreathCost := some 25,
     bloodShardCost := some 75,
     notes := some "Siphon Blood builds. Generates corpses." }),
  ("Lost Time",
   { slot := some "offHand",
     methods := some ["cube_upgrade", "kadala", "greater_rift"],
     primaryMethod := some "cube_upgrade",
     estimatedTime := some "medium",
     deathsBreathCost := some 25,
     bloodShardCost := some 75,
     notes := some "Cold builds. Slows enemies for Krysbin\x27s synergy." }),
  ("Iron Rose",
   { slot := some "offHand",
     methods := some ["cube_upgrade", "kadala", "greater_rift"],
     primaryMethod := some "cube_upgrade",
     estimatedTime := some "medium",
     deathsBreathCost := some 25,
     bloodShardCost := some 75,
     notes := some "Blood Nova procs. Siphon Blood synergy." }),
  ("Leger\x27s Disdain",
   { slot := some "offHand",
     methods := some ["cube_upgrade", "kadala", "greater_rift"],
     primaryMethod := some "cube_upgrade",
     estimatedTime := some "medium",
     deathsBreathCost := some 25,
     bloodShardCost := some 75,
     notes := some "Grim Scythe builds. Essence scaling." }),
  ("Krysbin\x27s Sentence",
   { slot := some "leftFinger,rightFinger",
     methods := some ["cube_upgrade", "kadala", "greater_rift"],
     primaryMethod := some "cube_upgrade",
     estimatedTime := some "medium",
     deathsBreathCost := some 50,
     bloodShardCost := some 50,
     notes := some "Best damage ring for CC builds. Pairs with cold/stun effects." }),
  ("Circle of Nailuj\x27s Evol",
   { slot := some "leftFinger,rightFinger",
     methods := some ["cube_upgrade", "kadala", "greater_rift"],
     primaryMethod := some "cube_upgrade",
     estimatedTime := some "medium",
     deathsBreathCost := some 50,
     bloodShardCost := some 50,
     notes := some "Skeletal Mage builds. Double mage summons." }),
  ("Haunted Visions",
   { slot := some "neck",
     methods := some ["cube_upgrade", "kadala", "greater_rift"],
     primaryMethod := some "cube_upgrade",
     estimatedTime := some "medium",
     deathsBreathCost := some 50,
     bloodShardCost := some 100,
     notes := some "Simulacrum builds. Permanent uptime." }),
  ("Focus",
   { slot := some "leftFinger,rightFinger",
     methods := some ["cube_upgrade", "kadala", "greater_rift", "world_drop"],
     primaryMethod := some "cube_upgrade",
     estimatedTime := some "medium",
     deathsBreathCost := some 50,
     bloodShardCost := some 50,
     notes := some "Part of Focus & Restraint. Generator/spender damage bonus." }),
  ("Restraint",
   { slot := some "leftFinger,rightFinger",
     methods := some ["cube_upgrade", "kadala", "greater_rift", "world_drop"],
     primaryMethod := some "cube_upgrade",
     estimatedTime := some "medium",
     deathsBreathCost := some 50,
     bloodShardCost := some 50,
     notes := some "Part of Focus & Restraint. Generator/spender damage bonus." }),
  ("The Compass Rose",
   { slot := some "leftFinger,rightFinger",
     methods := some ["cube_upgrade", "kadala", "greater_rift", "world_drop"],
     primaryMethod := some "cube_upgrade",
     estimatedTime := some "medium",
     deathsBreathCost := some 50,
     bloodShardCost := some 50,
     notes := some "Part of Endless Walk set. Standing still = damage." }),
  ("Convention of Elements",
   { slot := some "leftFinger,rightFinger",
     methods := some ["cube_upgrade", "kadala", "greater_rift", "world_drop"],
     primaryMethod := some "cube_upgrade",
     estimatedTime := some "medium",
     deathsBreathCost := some 50,
     bloodShardCost := some 50,
     notes := some "Rotating 200% damage buff. Best cubed for most builds." }),
  ("Unity",
   { slot := some "leftFinger,rightFinger",
     methods := some ["cube_upgrade", "kadala", "greater_rift", "world_drop"],
     primaryMethod := some "cube_upgrade",
     estimatedTime := some "medium",
     deathsBreathCost := some 50,
     bloodShardCost := some 50,
     notes := some "50% damage split with follower (needs immortal relic). Solo pushing." }),
  ("Ring of Royal Grandeur",
   { slot := some "leftFinger,rightFinger",
     methods := some ["bounty"],
     primaryMethod := some "bounty",
     estimatedTime := some "medium",
     bountyMaterialsRequired := some true,
     dropLocations := some ["Act 1 Bounty Cache"],
     notes := some "Reduces set requirements by 1. Only from Act 1 bounties!" }),
  ("Avarice Band",
   { slot := some "leftFinger,rightFinger",
     methods := some ["bounty"],
     primaryMethod := some "bounty",
     estimatedTime := some "medium",
     bountyMaterialsRequired := some true,
     dropLocations := some ["Act 3 Bounty Cache"],
     notes := some "Gold pickup radius. Speed farming. Only from Act 3 bounties!" }),
  ("Stone of Jordan",
   { slot := some "leftFinger,rightFinger",
     methods := some ["cube_upgrade", "kadala", "greater_rift", "world_drop"],
     primaryMethod := some "cube_upgrade",
     estimatedTime := some "medium",
     deathsBreathCost := some 50,
     bloodShardCost := some 50,
     notes := some "Elite damage. Good for push builds." }),
  ("Oculus Ring",
   { slot := some "leftFinger,rightFinger",
     methods := some ["cube_upgrade", "kadala", "greater_rift", "world_drop"],
     primaryMethod := some "world_drop",
     estimatedTime := some "quick",
     notes := some "Spawns damage zones. Put on follower!" }),
  ("The Traveler\x27s Pledge",
   { slot := some "neck",
     methods := some ["cube_upgrade", "kadala", "greater_rift", "world_drop"],
     primaryMethod := some "cube_upgrade",
     estimatedTime := some "medium",
     deathsBreathCost := some 50,
     bloodShardCost := some 100,
     notes := some "Part of Endless Walk set. Standing still = damage." }),
  ("Hellfire Amulet",
   { slot := some "neck",
     methods := some ["crafting"],
     primaryMethod := some "crafting",
     estimatedTime := some "long",
     notes := some "Crafted from Uber boss materials. Grants 5th passive." }),
  ("Squirt\x27s Necklace",
   { slot := some "neck",
     methods := some ["cube_upgrade", "kadala", "greater_rift", "world_drop"],
     primaryMethod := some "world_drop",
     estimatedTime := some "quick",
     notes := some "Stacking damage when not hit. Glass cannon builds." }),
  ("The Flavor of Time",
   { slot := some "neck",
     methods := some ["cube_upgrade", "kadala", "greater_rift", "world_drop"],
     primaryMethod := some "world_drop",
     estimatedTime := some "quick",
     notes := some "Double pylon duration. Put on follower!" }),
  ("Aquila Cuirass",
   { slot := some "torso",
     methods := some ["cube_upgrade", "kadala", "greater_rift", "world_drop"],
     primaryMethod := some "kadala",
     estimatedTime := some "medium",
     bloodShardCost := some 25,
     deathsBreathCost := some 25,
     notes := some "50% DR above 90% resource. Best cubed for most builds." }),
  ("Stone Gauntlets",
   { slot := some "hands",
     methods := some ["cube_upgrade", "kadala", "greater_rift", "world_drop"],
     primaryMethod := some "kadala",
     estimatedTime := some "medium",
     bloodShardCost := some 25,
     deathsBreathCost := some 25,
     notes := some "Massive armor stacking. Needs Ingeom or Ice Climbers to offset slow." }),
  ("Ice Climbers",
   { slot := some "feet",
     methods := some ["cube_upgrade", "kadala", "greater_rift", "world_drop"],
     primaryMethod := some "kadala",
     estimatedTime := some "medium",
     bloodShardCost := some 25,
     deathsBreathCost := some 25,
     notes := some "Immune to freeze and slow. Counters Stone Gauntlets." }),
  ("Nemesis Bracers",
   { slot := some "wrists",
     methods := some ["cube_upgrade", "kadala", "greater_rift", "world_drop"],
     primaryMethod := some "kadala",
     estimatedTime := some "quick",
     bloodShardCost := some 25,
     notes := some "Spawns elites from shrines. Speed farming or follower." }),
  ("Strongarm Bracers",
   { slot := some "wrists",
     methods := some ["cube_upgrade", "kadala", "greater_rift", "world_drop"],
     primaryMethod := some "kadala",
     estimatedTime := some "quick",
     bloodShardCost := some 25,
     notes := some "Knockback = 30% more damage. Pairs with CC skills." }),
  ("Goldwrap",
   { slot := some "waist",
     methods := some ["cube_upgrade", "kadala", "greater_rift", "world_drop"],
     primaryMethod := some "kadala",
     estimatedTime := some "quick",
     bloodShardCost := some 25,
     notes := some "Gold = armor. Speed farming with Boon of the Hoarder." }),
  ("The Witching Hour",
   { slot := some "waist",
     methods := some ["cube_upgrade", "kadala", "greater_rift", "world_drop"],
     primaryMethod := some "kadala",
     estimatedTime := some "long",
     bloodShardCost := some 25,
     notes := some "Attack speed + crit damage. Rare drop, best belt for DPS." }),
  ("Leoric\x27s Crown",
   { slot := some "head",
     methods := some ["cube_upgrade", "kadala", "greater_rift", "world_drop"],
     primaryMethod := some "kadala",
     estimatedTime := some "quick",
     bloodShardCost := some 25,
     notes := some "Double gem effect in helm. CDR with diamond." }),
  ("Pride\x27s Fall",
   { slot := some "head",
     methods := some ["bounty"],
     primaryMethod := some "bounty",
     estimatedTime := some "medium",
     bountyMaterialsRequired := some true,
     dropLocations := some ["Act 3 Bounty Cache"],
     notes := some "30% resource cost reduction. Only from Act 3 bounties!" }),
  ("Bane of the Trapped",
   { slot := some "gem",
     methods := some ["greater_rift"],
     primaryMethod := some "greater_rift",
     estimatedTime := some "quick",
     notes := some "First gem to level. Auto-slows at rank 25." }),
  ("Bane of the Stricken",
   { slot := some "gem",
     methods := some ["greater_rift"],
     primaryMethod := some "greater_rift",
     estimatedTime := some "quick",
     notes := some "Boss killer. Essential for high GR pushing." }),
  ("Bane of the Powerful",
   { slot := some "gem",
     methods := some ["greater_rift"],
     primaryMethod := some "greater_rift",
     estimatedTime := some "quick",
     notes := some "Easy damage buff. Good for speed farming." }),
  ("Zei\x27s Stone of Vengeance",
   { slot := some "gem",
     methods := some ["greater_rift"],
     primaryMethod := some "greater_rift",
     estimatedTime := some "quick",
     notes := some "Ranged builds. Damage increases with distance." }),
  ("Enforcer",
   { slot := some "gem",
     methods := some ["greater_rift"],
     primaryMethod := some "greater_rift",
     estimatedTime := some "quick",
     notes := some "Pet builds. +15% pet damage." }),
  ("Esoteric Alteration",
   { slot := some "gem",
     methods := some ["greater_rift"],
     primaryMethod := some "greater_rift",
     estimatedTime := some "quick",
     notes := some "Non-physical DR. Survival gem for pushing." }),
  ("Molten Wildebeest\x27s Gizzard",
   { slot := some "gem",
     methods := some ["greater_rift"],
     primaryMethod := some "greater_rift",
     estimatedTime := some "quick",
     notes := some "Shield and life regen. Pairs with Squirt\x27s Necklace." }),
  ("Gogok of Swiftness",
   { slot := some "gem",
     methods := some ["greater_rift"],
     primaryMethod := some "greater_rift",
     estimatedTime := some "quick",
     notes := some "CDR and attack speed. Great for cooldown builds." }),
  ("Pain Enhancer",
   { slot := some "gem",
     methods := some ["greater_rift"],
     primaryMethod := some "greater_rift",
     estimatedTime := some "quick",
     notes := some "Attack speed from bleeds. AoE builds." }),
  ("Boon of the Hoarder",
   { slot := some "gem",
     methods := some ["greater_rift"],
     primaryMethod := some "greater_rift",
     estimatedTime := some "quick",
     dropLocations := some ["Greed\x27s Domain (Vault)"],
     notes := some "Gold explosions. Speed farming with Goldwrap." }),
  ("Gem of Efficacious Toxin",
   { slot := some "gem",
     methods := some ["greater_rift"],
     primaryMethod := some "greater_rift",
     estimatedTime := some "quick",
     notes := some "Poison DoT + 10% damage taken debuff." }),
  ("Enchanting Favor",
   { slot := some "follower",
     methods := some ["world_drop", "kadala"],
     primaryMethod := some "world_drop",
     estimatedTime := some "medium",
     notes := some "Enchantress immortal relic. Required for Unity combo." }),
  ("Skeleton Key",
   { slot := some "follower",
     methods := some ["world_drop", "kadala"],
     primaryMethod := some "world_drop",
     estimatedTime := some "medium",
     notes := some "Scoundrel immortal relic. Required for Unity combo." }),
  ("Smoking Thurible",
   { slot := some "follower",
     methods := some ["world_drop", "kadala"],
     primaryMethod := some "world_drop",
     estimatedTime := some "medium",
     notes := some "Templar immortal relic. Required for Unity combo." }),
  ("Bul-Kathos\x27s Oath",
   { slot := some "mainHand,offHand",
     methods := some ["cube_upgrade", "kadala", "greater_rift"],
     primaryMethod := some "cube_upgrade",
     estimatedTime := some "medium",
     deathsBreathCost := some 25,
     notes := some "Whirlwind set weapons. Fury generation." }),
  ("The Furnace",
   { slot := some "mainHand",
     methods := some ["cube_upgrade", "greater_rift"],
     primaryMethod := some "cube_upgrade",
     estimatedTime := some "long",
     deathsBreathCost := some 25,
     notes := some "Elite damage. Often cubed." }),
  ("Blade of the Tribes",
   { slot := some "mainHand",
     methods := some ["cube_upgrade", "kadala", "greater_rift"],
     primaryMethod := some "cube_upgrade",
     estimatedTime := some "medium",
     deathsBreathCost := some 25,
     notes := some "Leap/Earthquake builds." }),
  ("Yang\x27s Recurve",
   { slot := some "mainHand",
     methods := some ["cube_upgrade", "kadala", "greater_rift"],
     primaryMethod := some "cube_upgrade",
     estimatedTime := some "medium",
     deathsBreathCost := some 25,
     notes := some "Multishot build core. Resource cost reduction." }),
  ("Dead Man\x27s Legacy",
   { slot := some "offHand",
     methods := some ["cube_upgrade", "kadala", "greater_rift"],
     primaryMethod := some "cube_upgrade",
     estimatedTime := some "medium",
     deathsBreathCost := some 25,
     notes := some "Multishot hits twice. Essential for UE build." }),
  ("Fortress Ballista",
   { slot := some "mainHand",
     methods := some ["cube_upgrade", "kadala", "greater_rift"],
     primaryMethod := some "cube_upgrade",
     estimatedTime := some "medium",
     deathsBreathCost := some 25,
     notes := some "Shield on attack. Survivability option." }),
  ("Dawn",
   { slot := some "mainHand",
     methods := some ["cube_upgrade", "kadala", "greater_rift"],
     primaryMethod := some "cube_upgrade",
     estimatedTime := some "medium",
     deathsBreathCost := some 25,
     notes := some "Vengeance CDR. 100% uptime with 37% CDR." }),
  ("Lord Greenstone\x27s Fan",
   { slot := some "offHand",
     methods := some ["cube_upgrade", "kadala", "greater_rift"],
     primaryMethod := some "cube_upgrade",
     estimatedTime := some "medium",
     deathsBreathCost := some 25,
     notes := some "Fan of Knives damage. GoD build." }),
  ("Deathwish",
   { slot := some "mainHand",
     methods := some ["cube_upgrade", "kadala", "greater_rift"],
     primaryMethod := some "cube_upgrade",
     estimatedTime := some "medium",
     deathsBreathCost := some 25,
     notes := some "Channeling damage. Vyr/Chantodo builds." }),
  ("Etched Sigil",
   { slot := some "offHand",
     methods := some ["cube_upgrade", "kadala", "greater_rift"],
     primaryMethod := some "cube_upgrade",
     estimatedTime := some "medium",
     deathsBreathCost := some 25,
     notes := some "Auto-cast spenders while channeling." }),
  ("Chantodo\x27s Resolve",
   { slot := some "mainHand,offHand",
     methods := some ["cube_upgrade", "kadala", "greater_rift"],
     primaryMethod := some "cube_upgrade",
     estimatedTime := some "medium",
     deathsBreathCost := some 25,
     notes := some "Archon build core. Wave of Destruction." }),
  ("The Twisted Sword",
   { slot := some "mainHand",
     methods := some ["cube_upgrade", "kadala", "greater_rift"],
     primaryMethod := some "cube_upgrade",
     estimatedTime := some "medium",
     deathsBreathCost := some 25,
     notes := some "Energy Twister damage." }),
  ("Kyoshiro\x27s Blade",
   { slot := some "mainHand",
     methods := some ["cube_upgrade", "kadala", "greater_rift"],
     primaryMethod := some "cube_upgrade",
     estimatedTime := some "medium",
     deathsBreathCost := some 25,
     notes := some "Wave of Light damage." }),
  ("Balance",
   { slot := some "mainHand",
     methods := some ["cube_upgrade", "kadala", "greater_rift"],
     primaryMethod := some "cube_upgrade",
     estimatedTime := some "medium",
     deathsBreathCost := some 25,
     notes := some "Tempest Rush damage." }),
  ("Vengeful Wind",
   { slot := some "mainHand",
     methods := some ["cube_upgrade", "kadala", "greater_rift"],
     primaryMethod := some "cube_upgrade",
     estimatedTime := some "medium",
     deathsBreathCost := some 25,
     notes := some "Sweeping Wind stacks. Patterns of Justice." }),
  ("Won Khim Lau",
   { slot := some "mainHand",
     methods := some ["cube_upgrade", "kadala", "greater_rift"],
     primaryMethod := some "cube_upgrade",
     estimatedTime := some "medium",
     deathsBreathCost := some 25,
     notes := some "Lightning pillar damage." }),
  ("Akkhan\x27s Leniency",
   { slot := some "mainHand",
     methods := some ["cube_upgrade", "kadala", "greater_rift"],
     primaryMethod := some "cube_upgrade",
     estimatedTime := some "medium",
     deathsBreathCost := some 25,
     notes := some "Blessed Shield bounces." }),
  ("Fate of the Fell",
   { slot := some "mainHand",
     methods := some ["cube_upgrade", "kadala", "greater_rift"],
     primaryMethod := some "cube_upgrade",
     estimatedTime := some "medium",
     deathsBreathCost := some 25,
     notes := some "Heaven\x27s Fury builds." }),
  ("Blade of Prophecy",
   { slot := some "mainHand",
     methods := some ["cube_upgrade", "kadala", "greater_rift"],
     primaryMethod := some "cube_upgrade",
     estimatedTime := some "medium",
     deathsBreathCost := some 25,
     notes := some "Condemn explosions." }),
  ("The Dagger of Darts",
   { slot := some "mainHand",
     methods := some ["cube_upgrade", "kadala", "greater_rift"],
     primaryMethod := some "cube_upgrade",
     estimatedTime := some "medium",
     deathsBreathCost := some 25,
     notes := some "Carnevil build core." }),
  ("Sacred Harvester",
   { slot := some "mainHand",
     methods := some ["cube_upgrade", "kadala", "greater_rift"],
     primaryMethod := some "cube_upgrade",
     estimatedTime := some "medium",
     deathsBreathCost := some 25,
     notes := some "Soul Harvest stacks. Jade Harvester." }),
  ("Voo\x27s Juicer",
   { slot := some "mainHand",
     methods := some ["cube_upgrade", "kadala", "greater_rift"],
     primaryMethod := some "cube_upgrade",
     estimatedTime := some "medium",
     deathsBreathCost := some 25,
     notes := some "Spirit Barrage damage." }),
  ("The Barber",
   { slot := some "mainHand",
     methods := some ["cube_upgrade", "kadala", "greater_rift"],
     primaryMethod := some "cube_upgrade",
     estimatedTime := some "medium",
     deathsBreathCost := some 25,
     notes := some "Spirit Barrage explosions." })
]

/-- Replacement of the first space by a dash, as the single-character
string-pattern `replace(' ', '-')` of the host runtime does. -/
def replaceFirstSpaceDash : List Char → List Char
  | [] => []
  | c :: cs => if c = ' ' then '-' :: cs else c :: replaceFirstSpaceDash cs

/-- Lookup of the passive list for a class (`getPassivesForClass`):
lower-case the class name, turn its first space into a dash, return the
table row or the empty list. -/
def getPassivesForClass (heroClass : String) : List String :=
  let normalized := String.mk (replaceFirstSpaceDash (lowerStr heroClass).data)
  match CLASS_PASSIVES.find? (fun e => e.1 == normalized) with
  | some e => e.2
  | none => []

/-- Case-insensitive membership of a skill name in the passive list of the
class (`isPassiveSkill`). -/
def isPassiveSkill (heroClass skillName : String) : Bool :=
  (getPassivesForClass heroClass).any (fun p => lowerStr p == lowerStr skillName)

/-- The candidate matcher of `checkRingSlotConflicts`, shared between the
typed check and its runtime evaluation. -/
def jewelryMatches (setName : String) : Bool :=
  match JEWELRY_SETS.find? (fun nm =>
      lowerStr nm.1 == lowerStr setName ||
      strIncludes (lowerStr setName) (lowerStr nm.1)) with
  | some nm => nm.2.slots.contains "leftFinger"
  | none => false

/-- The generic ring-conflict check (`checkRingSlotConflicts`): keep the
candidates whose name equals, or contains, a jewelry-set name
(case-insensitively) whose slot list includes the left ring finger; report
them when more than one survives. -/
def checkRingSlotConflicts (recommendedSets : List String) : Option (List String) :=
  let ringSets := recommendedSets.filter jewelryMatches
  if ringSets.length > 1 then some ringSets else none

/-- Acquisition lookup (`getItemAcquisition`): exact key first, then the
first case-insensitive match, then the generic fallback record. -/
def getItemAcquisition (itemName : String) : ItemAcqRef :=
  match ITEM_ACQUISITION.find? (fun e => e.1 == itemName) with
  | some e => e.2
  | none =>
    match ITEM_ACQUISITION.find? (fun e => lowerStr e.1 == lowerStr itemName) with
    | some e => e.2
    | none =>
      { methods := some ["greater_rift", "kadala", "cube_upgrade"],
        primaryMethod := some "greater_rift",
        estimatedTime := some "medium",
        notes := some "Check Maxroll.gg for specific farming advice." }

/-- One tier of a set bonus as normalized output (`SetBonusTier`). -/
structure SetBonusTier where
  pieces : ℚ
  bonus : String
deriving Repr, DecidableEq

/-- One normalized set recommendation (`SetRecommendation`); `bonuses` is
`none` when the optional field is absent from the output object. -/
structure SetRecommendation where
  name : String
  pieces : ℚ
  bonuses : Option (List SetBonusTier)
  reason : String
deriving Repr, DecidableEq

/-- One normalized cube power (`CubePower`). -/
structure CubePower where
  name : String
  reason : String
deriving Repr, DecidableEq

/-- The three cube-power slots (`CubePowerRecommendation`). -/
structure CubePowerRecommendation where
  weapon : CubePower
  armor : CubePower
  jewelry : CubePower
deriving Repr, DecidableEq

/-- One normalized stat projection (`StatProjection`); `current` is `none`
for the JSON `null` the normalizer writes when no number was supplied, and
the `rating` string is one of the four rating words after validation. -/
structure StatProjection where
  current : Option ℚ
  projectedValue : Option ℚ
  estimatedMultiplier : String
  rating : String
  justification : Option String
  note : Option String
deriving Repr, DecidableEq

/-- The GR-tier projection (`GRTierProjection`). -/
structure GRTierProjection where
  current : String
  projected : String
  note : Option String
deriving Repr, DecidableEq

/-- The five projection fields (`ProjectedImprovements`). -/
structure ProjectedImprovements where
  damage : StatProjection
  toughness : StatProjection
  recovery : StatProjection
  life : StatProjection
  grTierPotential : GRTierProjection
deriving Repr, DecidableEq

/-- The normalized output of `parseResponse` (`BuildRecommendation`).  The
nested TypeScript shape `skills.active`, `gear.sets` and so on is flattened
into one structure.  Fields whose value the normalizer passes through
unchecked (the skill lists, the item list, the gems, the free-text fields and
the farming priority) keep the raw `Json` value the code assigns. -/
structure BuildRecommendation where
  skillsActive : Json
  skillsPassive : Json
  gearSets : List SetRecommendation
  gearItems : Json
  cubePowers : CubePowerRecommendation
  gems : Json
  playstyle : Json
  farmingPriority : Json
  summary : Json
  projectedImprovements : Option ProjectedImprovements
deriving Repr, DecidableEq

/-- Evaluation of `parsed.k1?.k2` for a receiver already known non-null:
the optional chain yields `undefined` when the first step is `null` or
`undefined`. -/
def chainGet2 (parsed : Json) (k1 k2 : String) : Option Json :=
  match getField parsed k1 with
  | none => none
  | some .null => none
  | some v => getField v k2

/-- The rating validator (`validateRating`): a string among the four rating
words passes through, anything else becomes `minor`. -/
def validateRating (rating : Option Json) : String :=
  match rating with
  | some (.str s) =>
    if s = "minor" ∨ s = "moderate" ∨ s = "major" ∨ s = "transformative" then s
    else "minor"
  | _ => "minor"

/-- Evaluation of `x ? String(x) : undefined`. -/
def jsOptString (v : Option Json) : Option String :=
  match v with
  | some x => if truthy x then some (jsToString x) else none
  | none => none

/-- The `defaultStat` record of `normalizeProjections`. -/
def defaultStatProjection : StatProjection :=
  ⟨none, none, "N/A", "minor", none, none⟩

/-- The per-stat branch of `normalizeProjections`. -/
def normalizeStatProjection (stat : Option Json) : StatProjection :=
  if isObjectLike stat then
    match stat with
    | some s =>
      ⟨(match getField s "current" with | some (.num q) => some q | _ => none),
       (match getField s "projectedValue" with | some (.num q) => some q | _ => none),
       jsToString (jsOr (getField s "estimatedMultiplier") (.str "N/A")),
       validateRating (getField s "rating"),
       jsOptString (getField s "justification"),
       jsOptString (getField s "note")⟩
    | none => defaultStatProjection
  else defaultStatProjection

/-- The `defaultGR` record of `normalizeProjections`. -/
def defaultGRProjection : GRTierProjection :=
  ⟨"Unknown", "Unknown", none⟩

/-- The GR-tier branch of `normalizeProjections`. -/
def normalizeGRProjection (gr : Option Json) : GRTierProjection :=
  if isObjectLike gr then
    match gr with
    | some g =>
      ⟨jsToString (jsOr (getField g "current") (.str "Unknown")),
       jsToString (jsOr (getField g "projected") (.str "Unknown")),
       jsOptString (getField g "note")⟩
    | none => defaultGRProjection
  else defaultGRProjection

/-- The projections normalizer (`normalizeProjections`): `undefined` unless
the supplied value passes the object test. -/
def normalizeProjections (projections : Option Json) : Option ProjectedImprovements :=
  if isObjectLike projections then
    match projections with
    | some p =>
      some ⟨normalizeStatProjection (getField p "damage"),
            normalizeStatProjection (getField p "toughness"),
            normalizeStatProjection (getField p "recovery"),
            normalizeStatProjection (getField p "life"),
            normalizeGRProjection (getField p "grTierPotential")⟩
    | none => none
  else none

/-- The per-slot branch of `normalizeCubePowers`: a bare string keeps an
empty reason, an object-like value is read field-by-field, anything else is
the empty power. -/
def normalizeCubePower (value : Option Json) : CubePower :=
  match value with
  | some (.str s) => ⟨s, ""⟩
  | some (.obj kvs) =>
    ⟨jsToString (jsOr (getField (.obj kvs) "name") (.str "")),
     jsToString (jsOr (getField (.obj kvs) "reason") (.str ""))⟩
  | some (.arr xs) =>
    ⟨jsToString (jsOr (getField (.arr xs) "name") (.str "")),
     jsToString (jsOr (getField (.arr xs) "reason") (.str ""))⟩
  | _ => ⟨"", ""⟩

/-- The cube-power normalizer (`normalizeCubePowers`). -/
def normalizeCubePowers (powers : Option Json) : CubePowerRecommendation :=
  match powers with
  | none => ⟨⟨"", ""⟩, ⟨"", ""⟩, ⟨"", ""⟩⟩
  | some p =>
    if truthy p then
      ⟨normalizeCubePower (getField p "weapon"),
       normalizeCubePower (getField p "armor"),
       normalizeCubePower (getField p "jewelry")⟩
    else ⟨⟨"", ""⟩, ⟨"", ""⟩, ⟨"", ""⟩⟩

/-- One element of a supplied bonus list.  A `null` element makes the
JavaScript property read `bonus.pieces` throw, which the enclosing try of
`parseResponse` converts into its parse failure. -/
def normalizeBonusTier (b : Json) : Except Unit SetBonusTier :=
  match b with
  | .null => .error ()
  | _ =>
    .ok ⟨(match getField b "pieces" with | some (.num q) => q | _ => 0),
         jsToString (jsOr (getField b "bonus") (.str ""))⟩

/-- Ascending order on bonus tiers, the comparator
`(a, b) => a.pieces - b.pieces`. -/
def bonusLE (a b : SetBonusTier) : Prop := a.pieces ≤ b.pieces

instance : DecidableRel bonusLE := fun a b =>
  inferInstanceAs (Decidable (a.pieces ≤ b.pieces))

instance : IsTotal SetBonusTier bonusLE := ⟨fun a b => le_total a.pieces b.pieces⟩

instance : IsTrans SetBonusTier bonusLE := ⟨fun _ _ _ => le_trans⟩

/-- The stable ascending sort of bonus tiers. -/
def sortBonuses (l : List SetBonusTier) : List SetBonusTier :=
  List.insertionSort bonusLE l

/-- The in-order element mapping of a supplied bonus array, stopping at the
first throwing element as the JavaScript `map` does. -/
def mapMBonus : List Json → Except Unit (List SetBonusTier)
  | [] => .ok []
  | b :: rest => do
    let t ← normalizeBonusTier b
    let ts ← mapMBonus rest
    .ok (t :: ts)

/-- One entry of `normalizeSets`: a non-object becomes the empty record; a
supplied non-empty bonus array is normalized element by element; otherwise
the tiers at or below the recommended piece count are synthesized from
`SET_BONUSES`, ascending. -/
def normalizeSetEntry (set : Json) : Except Unit SetRecommendation :=
  if isObjectLike (some set) then
    let name := jsToString (jsOr (getField set "name") (.str ""))
    let pieces : ℚ := match getField set "pieces" with | some (.num q) => q | _ => 0
    let reason := jsToString (jsOr (getField set "reason") (.str ""))
    match getField set "bonuses" with
    | some (.arr (b :: bs)) =>
      (mapMBonus (b :: bs)).map (fun ts => ⟨name, pieces, some ts, reason⟩)
    | _ =>
      match SET_BONUSES.find? (fun e => e.1 == name) with
      | some e =>
        .ok ⟨name, pieces,
             some (sortBonuses ((e.2.filter (fun t => (t.1 : ℚ) ≤ pieces)).map
               (fun t => ⟨(t.1 : ℚ), t.2⟩))),
             reason⟩
      | none => .ok ⟨name, pieces, none, reason⟩
  else .ok ⟨"", 0, none, ""⟩

/-- The in-order element mapping of the set array. -/
def normalizeSetsList : List Json → Except Unit (List SetRecommendation)
  | [] => .ok []
  | s :: rest => do
    let r ← normalizeSetEntry s
    let rs ← normalizeSetsList rest
    .ok (r :: rs)

/-- The set-list normalizer (`normalizeSets`): a non-array input yields the
empty list. -/
def normalizeSets (sets : Json) : Except Unit (List SetRecommendation) :=
  match sets with
  | .arr l => normalizeSetsList l
  | _ => .ok []

/-- The field-by-field body of `parseResponse` after a successful
`JSON.parse`.  The only raisable error is the `null`-element read inside a
supplied bonus list — and the initial `parsed.skills` read when the parsed
document is the lone value `null`, which also throws in JavaScript. -/
def buildRecFromJson (parsed : Json) : Except Unit BuildRecommendation :=
  match parsed with
  | .null => .error ()
  | _ =>
    (normalizeSets (jsOr (chainGet2 parsed "gear" "sets") (.arr []))).map
      (fun sets =>
        { skillsActive := jsOr (chainGet2 parsed "skills" "active") (.arr []),
          skillsPassive := jsOr (chainGet2 parsed "skills" "passive") (.arr []),
          gearSets := sets,
          gearItems := jsOr (chainGet2 parsed "gear" "items") (.arr []),
          cubePowers := normalizeCubePowers (chainGet2 parsed "gear" "cubePowers"),
          gems := jsOr (getField parsed "gems") (.arr []),
          playstyle := jsOr (getField parsed "playstyle") (.str ""),
          farmingPriority := jsOr (getField parsed "farmingPriority") (.arr []),
          summary := jsOr (getField parsed "summary") (.str ""),
          projectedImprovements := normalizeProjections (getField parsed "projectedImprovements") })

/-- The single error message `parseResponse` throws, both when `JSON.parse`
rejects the stripped text and when the defaulting walk itself throws. -/
def parseFailMsg : String :=
  "Failed to parse build recommendations. Please try again."

/-- The response normalizer `parseResponse`: strip a fenced block, parse,
walk with defaults; every failure surfaces as the one parse-failure error. -/
def parseResponse (content : String) : Except String BuildRecommendation :=
  match jsonParse (extractJson content) with
  | none => .error parseFailMsg
  | some parsed =>
    match buildRecFromJson parsed with
    | .ok r => .ok r
    | .error _ => .error parseFailMsg

/-- The normalized item-acquisition record (`ItemAcquisition` after
`normalizeItemAcquisition`).  A supplied `methods` array passes through with
its raw elements unchecked, so the element type stays `Json`; reference-table
methods enter as strings. -/
structure ItemAcquisition where
  itemName : String
  slot : String
  methods : List Json
  primaryMethod : String
  estimatedTime : String
  bloodShardCost : Option ℚ
  deathsBreathCost : Option ℚ
  forgottenSoulCost : Option ℚ
  bountyMaterialsRequired : Bool
  craftingRecipeSource : Option String
  dropLocations : Option (List String)
  notes : Option String
deriving Repr, DecidableEq

/-- One normalized upgrade step (`UpgradeStep`). -/
structure UpgradeStep where
  id : String
  priority : ℚ
  item : ItemAcquisition
  reason : String
  powerIncrease : String
  dependsOn : Option (List String)
  unlocks : Option (List String)
deriving Repr, DecidableEq

/-- The three farming-time buckets (`TieredUpgrades`). -/
structure TieredUpgrades where
  quick : List UpgradeStep
  medium : List UpgradeStep
  long : List UpgradeStep
deriving Repr, DecidableEq

/-- The ordered progression path (`ProgressionPath`). -/
structure ProgressionPath where
  currentPhase : String
  steps : List UpgradeStep
  totalEstimatedTime : String
  criticalPath : List String
deriving Repr, DecidableEq

/-- The tier validator (`validateDifficultyTier`): one of the three tier
words passes, anything else is `null`. -/
def validateDifficultyTier (tier : Option Json) : Option String :=
  match tier with
  | some (.str s) => if s = "quick" ∨ s = "medium" ∨ s = "long" then some s else none
  | _ => none

/-- The power-increase validator (`validatePowerIncrease`): one of the four
rating words passes, anything else becomes `moderate`. -/
def validatePowerIncrease (power : Option Json) : String :=
  match power with
  | some (.str s) =>
    if s = "minor" ∨ s = "moderate" ∨ s = "major" ∨ s = "transformative" then s
    else "moderate"
  | _ => "moderate"

/-- The record `normalizeItemAcquisition` builds when the supplied item is
not an object. -/
def unknownItemAcquisition (defaultTier : String) : ItemAcquisition :=
  ⟨"Unknown Item", "unknown", [.str "world_drop"], "world_drop", defaultTier,
   none, none, none, false, none, none, none⟩

/-- The item-acquisition normalizer (`normalizeItemAcquisition`): each field
takes the supplied value when present (and, where the source checks, of the
right type), else the reference-table value for the item name, else the
documented constant. -/
def normalizeItemAcquisition (item : Option Json) (defaultTier : String) :
    ItemAcquisition :=
  if isObjectLike item then
    match item with
    | some i =>
      let itemName := jsToString (jsOr (getField i "itemName") (.str ""))
      let refData := getItemAcquisition itemName
      ⟨itemName,
       jsToString (jsOr (getField i "slot")
         (jsOr (refData.slot.map Json.str) (.str "unknown"))),
       (match getField i "methods" with
        | some (.arr l) => l
        | _ =>
          match refData.methods with
          | some ms => ms.map Json.str
          | none => [Json.str "world_drop"]),
       jsToString (jsOr (getField i "primaryMethod")
         (jsOr (refData.primaryMethod.map Json.str) (.str "world_drop"))),
       jsToString (jsOr ((validateDifficultyTier (getField i "estimatedTime")).map Json.str)
         (jsOr (refData.estimatedTime.map Json.str) (.str defaultTier))),
       (match getField i "bloodShardCost" with
        | some (.num q) => some q
        | _ => refData.bloodShardCost),
       (match getField i "deathsBreathCost" with
        | some (.num q) => some q
        | _ => refData.deathsBreathCost),
       (match getField i "forgottenSoulCost" with
        | some (.num q) => some q
        | _ => refData.forgottenSoulCost),
       (truthyO (getField i "bountyMaterialsRequired") ||
         (match refData.bountyMaterialsRequired with | some b => b | none => false)),
       (match jsOptString (getField i "craftingRecipeSource") with
        | some s => some s
        | none => refData.craftingRecipeSource),
       (match getField i "dropLocations" with
        | some (.arr l) => some (l.map jsToString)
        | _ => refData.dropLocations),
       (match jsOptString (getField i "notes") with
        | some s => some s
        | none => refData.notes)⟩
    | none => unknownItemAcquisition defaultTier
  else unknownItemAcquisition defaultTier

/-- The fallback step for a non-object array element
(`createDefaultUpgradeStep`). -/
def createDefaultUpgradeStep (index : ℕ) (tier : String) : UpgradeStep :=
  ⟨tier ++ "-" ++ Nat.repr index, (index : ℚ) + 1,
   ⟨"Unknown Item", "unknown", [.str "world_drop"], "world_drop", tier,
    none, none, none, false, none, none, none⟩,
   "Upgrade recommended", "moderate", none, none⟩

/-- One array element of `normalizeUpgradeSteps`. -/
def normalizeUpgradeStep (tier : String) (index : ℕ) (s : Json) : UpgradeStep :=
  if isObjectLike (some s) then
    ⟨jsToString (jsOr (getField s "id") (.str (tier ++ "-" ++ Nat.repr index))),
     (match getField s "priority" with | some (.num q) => q | _ => (index : ℚ) + 1),
     normalizeItemAcquisition (getField s "item") tier,
     jsToString (jsOr (getField s "reason") (.str "")),
     validatePowerIncrease (getField s "powerIncrease"),
     (match getField s "dependsOn" with | some (.arr l) => some (l.map jsToString) | _ => none),
     (match getField s "unlocks" with | some (.arr l) => some (l.map jsToString) | _ => none)⟩
  else createDefaultUpgradeStep index tier

/-- The step-list normalizer (`normalizeUpgradeSteps`): a non-array yields
the empty list. -/
def normalizeUpgradeSteps (steps : Option Json) (tier : String) : List UpgradeStep :=
  match steps with
  | some (.arr l) => l.enum.map (fun p => normalizeUpgradeStep tier p.1 p.2)
  | _ => []

/-- The tiered-upgrades normalizer (`normalizeTieredUpgrades`). -/
def normalizeTieredUpgrades (upgrades : Option Json) : TieredUpgrades :=
  if isObjectLike upgrades then
    match upgrades with
    | some u =>
      ⟨normalizeUpgradeSteps (getField u "quick") "quick",
       normalizeUpgradeSteps (getField u "medium") "medium",
       normalizeUpgradeSteps (getField u "long") "long"⟩
    | none => ⟨[], [], []⟩
  else ⟨[], [], []⟩

/-- The progression-path normalizer (`normalizeProgressionPath`). -/
def normalizeProgressionPath (path : Option Json) : ProgressionPath :=
  if isObjectLike path then
    match path with
    | some p =>
      ⟨jsToString (jsOr (getField p "currentPhase") (.str "Starting out")),
       normalizeUpgradeSteps (getField p "steps") "medium",
       jsToString (jsOr (getField p "totalEstimatedTime") (.str "Unknown")),
       (match getField p "criticalPath" with | some (.arr l) => l.map jsToString | _ => [])⟩
    | none => ⟨"Starting out", [], "Unknown", []⟩
  else ⟨"Starting out", [], "Unknown", []⟩

/-- The enhanced parser (`parseEnhancedResponse`): the base
`parseResponse` result extended with the tiered-upgrade and
progression-path fields; a failure inside the enhanced block (only the
`null` document, whose property read throws) falls back to the catch
branch with its empty defaults. -/
def parseEnhancedResponse (content : String) :
    Except String (BuildRecommendation × TieredUpgrades × ProgressionPath) :=
  match parseResponse content with
  | .error e => .error e
  | .ok base =>
    match jsonParse (extractJson content) with
    | some .null => .ok (base, ⟨[], [], []⟩, ⟨"Analysis in progress", [], "Unknown", []⟩)
    | some parsed =>
      .ok (base, normalizeTieredUpgrades (getField parsed "tieredUpgrades"),
           normalizeProgressionPath (getField parsed "progressionPath"))
    | none => .ok (base, ⟨[], [], []⟩, ⟨"Analysis in progress", [], "Unknown", []⟩)

/-- One warning of the domain validator (`ValidationWarning` in
`d3Reference.ts`); `type` ranges over the three warning kinds and `severity`
over the two severity words. -/
structure ValidationWarning where
  type : String
  message : String
  severity : String
deriving Repr, DecidableEq

/-- Iteration `for..of` over a JavaScript value: arrays yield their
elements, strings their characters; everything else is not iterable and
throws. -/
def jsIterate : Json → Except Unit (List Json)
  | .arr xs => .ok xs
  | .str s => .ok (s.data.map (fun c => Json.str (String.singleton c)))
  | _ => .error ()

/-- Property read on a loop element, which may be `null` (a throw). -/
def getMemberE (e : Json) (k : String) : Except Unit (Option Json) :=
  match e with
  | .null => .error ()
  | _ => .ok (getField e k)

/-- The call `isPassiveSkill(heroClass, activeSkill.skill)` as evaluated at
runtime: when the class has no passive list, `some` returns `false` without
touching the argument; otherwise a non-string skill value throws on its
`toLowerCase`. -/
def isPassiveSkillJS (heroClass : String) (skillName : Option Json) :
    Except Unit Bool :=
  match getPassivesForClass heroClass with
  | [] => .ok false
  | _ =>
    match skillName with
    | some (.str s) => .ok (isPassiveSkill heroClass s)
    | _ => .error ()

/-- The skill-type-error loop of `validateResponse`, in element order. -/
def collectSkillWarnings (heroClass : String) : List Json →
    Except Unit (List ValidationWarning)
  | [] => .ok []
  | e :: rest => do
    let sv ← getMemberE e "skill"
    let b ← isPassiveSkillJS heroClass sv
    let ws ← collectSkillWarnings heroClass rest
    if b then
      .ok (⟨"skill_type_error",
            "\"" ++ (match sv with | some j => jsToString j | none => "undefined") ++
              "\" is a passive skill, not an active skill. It should not have a rune.",
            "error"⟩ :: ws)
    else .ok ws

/-- The ring-slot filter over `gear.items`: the predicate evaluates on every
element (a `null` element throws even when it would be dropped). -/
def filterRingItems : List Json → Except Unit (List Json)
  | [] => .ok []
  | i :: rest => do
    let sv ← getMemberE i "slot"
    let keep := sv == some (.str "leftFinger") || sv == some (.str "rightFinger") ||
      sv == some (.str "ring1") || sv == some (.str "ring2")
    let rs ← filterRingItems rest
    .ok (if keep then i :: rs else rs)

/-- The `.map(i => i.item)` step over the kept ring items. -/
def mapRingItems : List Json → Except Unit (List (Option Json))
  | [] => .ok []
  | i :: rest => do
    let v ← getMemberE i "item"
    let vs ← mapRingItems rest
    .ok (v :: vs)

/-- The two-step ring-item extraction of `validateResponse`; a non-array
`gear.items` value has no `filter` method and throws. -/
def collectRingItems : Json → Except Unit (List (Option Json))
  | .arr xs => do
    let kept ← filterRingItems xs
    mapRingItems kept
  | _ => .error ()

/-- The filter inside `checkRingSlotConflicts` as evaluated on the combined
candidate list, whose item-derived entries may be any value: a non-string
candidate throws on `toLowerCase`. -/
def filterRingCandidates : List (Option Json) → Except Unit (List String)
  | [] => .ok []
  | c :: rest =>
    match c with
    | some (.str s) => do
      let rs ← filterRingCandidates rest
      .ok (if jewelryMatches s then s :: rs else rs)
    | _ => .error ()

/-- One `some(...)` scan of the candidate list against a synonym predicate:
left to right, stopping at the first hit, throwing at the first non-string
reached. -/
def someIncludes (pred : String → Bool) : List (Option Json) →
    Except Unit Bool
  | [] => .ok false
  | c :: rest =>
    match c with
    | some (.str s) => if pred s then .ok true else someIncludes pred rest
    | _ => .error ()

/-- The standing-still synonym test of the hardcoded pair rule. -/
def endlessWalkPred (s : String) : Bool :=
  strIncludes (lowerStr s) "traveler" || strIncludes (lowerStr s) "compass rose" ||
    strIncludes (lowerStr s) "endless walk"

/-- The generator/spender synonym test of the hardcoded pair rule. -/
def focusRestraintPred (s : String) : Bool :=
  strIncludes (lowerStr s) "focus" || strIncludes (lowerStr s) "restraint"

/-- The message of the generic ring-conflict warning. -/
def ringConflictMsg (conflicts : List String) : String :=
  "Ring slot conflict: Cannot equip both " ++ String.intercalate " and " conflicts ++
    " - only 2 ring slots available."

/-- The message of the hardcoded pair-conflict warning. -/
def pairConflictMsg : String :=
  "Cannot use Endless Walk set (Traveler\x27s Pledge + Compass Rose) with Focus and Restraint - both require ring slots."

/-- The domain validator (`validateResponse`): the skill-type loop, the
generic ring-set check over set names plus ring-slot items, and the
hardcoded Endless Walk versus Focus/Restraint pair rule, in that order. -/
def validateResponse (recommendation : BuildRecommendation) (heroClass : String) :
    Except Unit (List ValidationWarning) := do
  let elems ← jsIterate recommendation.skillsActive
  let w1 ← collectSkillWarnings heroClass elems
  let recommendedSets := recommendation.gearSets.map (fun s => s.name)
  let ringItems ← collectRingItems recommendation.gearItems
  let allRingRelated := recommendedSets.map (fun n => some (Json.str n)) ++ ringItems
  let ringSets ← filterRingCandidates allRingRelated
  let w2 :=
    if ringSets.length > 1 then
      [ValidationWarning.mk "slot_conflict" (ringConflictMsg ringSets) "error"]
    else []
  let hasEndlessWalk ← someIncludes endlessWalkPred allRingRelated
  let hasFocusRestraint ← someIncludes focusRestraintPred allRingRelated
  let w3 :=
    if hasEndlessWalk && hasFocusRestraint then
      [ValidationWarning.mk "slot_conflict" pairConflictMsg "error"]
    else []
  .ok (w1 ++ w2 ++ w3)

/-- The meta-build reference fetched from the Maxroll collaborator and, when
present, attached to an enhanced recommendation (`MetaBuildReference` in
`types/maxroll.ts`; the optional skills payload is not read by the advisor
pipeline and is omitted). -/
structure MetaBuildReference where
  buildName : String
  tier : String
  guideUrl : String
  coreItems : List String
  keySynergies : List String
deriving Repr, DecidableEq

/-- A cached recommendation (`AnyBuildRecommendation` in `stores/auth.ts`):
the basic shape, or the enhanced shape with its extra fields.  The
`validationWarnings` the services attach before returning are carried
alongside. -/
inductive AnyRec where
  | basic (rec : BuildRecommendation) (warnings : List ValidationWarning)
  | enhanced (rec : BuildRecommendation) (tieredUpgrades : TieredUpgrades)
      (progressionPath : ProgressionPath) (warnings : List ValidationWarning)
      (metaBuildReference : Option MetaBuildReference)
deriving Repr, DecidableEq

/-- The check `'tieredUpgrades' in recommendation`. -/
def AnyRec.isEnhanced : AnyRec → Bool
  | .basic _ _ => false
  | .enhanced _ _ _ _ _ => true

/-- The post-transport body of `analyzeHero`: parse the producer text, then
validate and attach warnings.  A `TypeError` thrown by the validator on an
ill-shaped normalized value propagates to the caller like any error; its
host-runtime message is abstracted to the constant "TypeError". -/
def analyzeHero (heroClass : String) (content : String) : Except String AnyRec :=
  match parseResponse content with
  | .error e => .error e
  | .ok rec =>
    match validateResponse rec heroClass with
    | .ok w => .ok (.basic rec w)
    | .error _ => .error "TypeError"

/-- The post-transport body of `analyzeHeroEnhanced`: the enhanced parse,
validation of the base fields, and the meta-build attachment. -/
def analyzeHeroEnhanced (heroClass : String) (metaBuild : Option MetaBuildReference)
    (content : String) : Except String AnyRec :=
  match parseEnhancedResponse content with
  | .error e => .error e
  | .ok (base, tiered, path) =>
    match validateResponse base heroClass with
    | .ok w => .ok (.enhanced base tiered path w metaBuild)
    | .error _ => .error "TypeError"

/-- The mutable state of the analysis store (`useClaudeAnalysisStore`): the
current recommendation, the error text, the analyzed hero id, the enhanced
flag, and the per-hero cache.  The transient `isAnalyzing` flag, set and
cleared inside one run, has no net effect and is not carried. -/
structure AuthStoreState where
  recommendation : Option AnyRec
  error : Option String
  analyzedHeroId : Option ℕ
  isEnhancedAnalysis : Bool
  cache : List (ℕ × AnyRec)
deriving Repr, DecidableEq

/-- Lookup `cache.get(id)`. -/
def lookupCache (cache : List (ℕ × AnyRec)) (id : ℕ) : Option AnyRec :=
  (cache.find? (fun e => e.1 == id)).map (fun e => e.2)

/-- Update `cache.set(id, rec)`: replace in place or append. -/
def insertCache : List (ℕ × AnyRec) → ℕ → AnyRec → List (ℕ × AnyRec)
  | [], id, r => [(id, r)]
  | (k, v) :: rest, id, r =>
    if k = id then (k, r) :: rest else (k, v) :: insertCache rest id r

/-- The pipeline half of `generateBuildSuggestion`: choose the enhanced or
the basic service on the Maxroll setting, then either store and cache the
result or record the failure leaving the cache untouched. -/
def runAnalysisPipeline (st : AuthStoreState) (heroId : ℕ) (heroClass : String)
    (useMaxrollData : Bool) (metaBuild : Option MetaBuildReference)
    (producerText : String) : AuthStoreState :=
  let result :=
    if useMaxrollData then analyzeHeroEnhanced heroClass metaBuild producerText
    else analyzeHero heroClass producerText
  match result with
  | .ok rec =>
    ⟨some rec, none, some heroId, rec.isEnhanced, insertCache st.cache heroId rec⟩
  | .error e =>
    ⟨none, some e, st.analyzedHeroId, false, st.cache⟩

/-- The orchestrator `generateBuildSuggestion`, as the net state transition
of one call.  The producer transport is a collaborator: the text its reply
carries enters as `producerText`.  The returned flag records whether a
pipeline run was started (the cache read was bypassed or missed). -/
def generateBuildSuggestion (st : AuthStoreState) (heroId : ℕ) (heroClass : String)
    (forceRefresh : Bool) (useMaxrollData : Bool)
    (metaBuild : Option MetaBuildReference) (producerText : String) :
    AuthStoreState × Bool :=
  match forceRefresh, lookupCache st.cache heroId with
  | false, some r =>
    (⟨some r, none, some heroId, r.isEnhanced, st.cache⟩, false)
  | _, _ =>
    (runAnalysisPipeline st heroId heroClass useMaxrollData metaBuild producerText, true)

/-- One active-skill entry as the prompt schema shapes it
(`SkillRecommendation`), used to quantify over well-formed normalized
recommendations. -/
structure SkillRecommendation where
  skill : String
  rune : String
  reason : String
deriving Repr, DecidableEq

/-- One item entry as the prompt schema shapes it (`ItemRecommendation`). -/
structure ItemRecommendation where
  slot : String
  item : String
  reason : String
deriving Repr, DecidableEq

/-- The JSON object a well-formed active-skill entry parses to. -/
def encodeSkill (a : SkillRecommendation) : Json :=
  .obj [("skill", .str a.skill), ("rune", .str a.rune), ("reason", .str a.reason)]

/-- The JSON object a well-formed item entry parses to. -/
def encodeItem (i : ItemRecommendation) : Json :=
  .obj [("slot", .str i.slot), ("item", .str i.item), ("reason", .str i.reason)]

/-- The four slot names `validateResponse` treats as ring slots. -/
def isRingSlot (s : String) : Bool :=
  s == "leftFinger" || s == "rightFinger" || s == "ring1" || s == "ring2"

/-- The warning the skill-type check emits for one offending skill. -/
def skillTypeWarning (skill : String) : ValidationWarning :=
  ⟨"skill_type_error",
   "\"" ++ skill ++ "\" is a passive skill, not an active skill. It should not have a rune.",
   "error"⟩

/-- The combined candidate list of the slot-conflict checks: every
recommended set name plus every recommended item sitting in a ring slot. -/
def ringCandidates (sets : List SetRecommendation) (items : List ItemRecommendation) :
    List String :=
  sets.map (fun s => s.name) ++ (items.filter (fun i => isRingSlot i.slot)).map (fun i => i.item)

theorem isPassiveSkillJS_str (heroClass s : String) :
    isPassiveSkillJS heroClass (some (.str s)) = .ok (isPassiveSkill heroClass s) := by
  unfold isPassiveSkillJS
  cases h : getPassivesForClass heroClass with
  | nil => simp [isPassiveSkill, h]
  | cons a l => rfl

theorem getMemberE_encodeSkill (a : SkillRecommendation) :
    getMemberE (encodeSkill a) "skill" = .ok (some (.str a.skill)) := rfl

theorem getMemberE_encodeItem_slot (i : ItemRecommendation) :
    getMemberE (encodeItem i) "slot" = .ok (some (.str i.slot)) := rfl

theorem getMemberE_encodeItem_item (i : ItemRecommendation) :
    getMemberE (encodeItem i) "item" = .ok (some (.str i.item)) := rfl

theorem beq_some_str (s t : String) :
    (some (Json.str s) == some (Json.str t)) = (s == t) := by
  by_cases h : s = t <;> simp [h]

theorem isRingSlot_def (s : String) :
    (s == "leftFinger" || s == "rightFinger" || s == "ring1" || s == "ring2") =
      isRingSlot s := rfl

theorem collectSkillWarnings_encoded (heroClass : String)
    (active : List SkillRecommendation) :
    collectSkillWarnings heroClass (active.map encodeSkill) =
      .ok ((active.filter (fun a => isPassiveSkill heroClass a.skill)).map
        (fun a => skillTypeWarning a.skill)) := by
  induction active with
  | nil => rfl
  | cons a rest ih =>
    simp only [List.map_cons, collectSkillWarnings, getMemberE_encodeSkill, List.filter_cons]
    simp only [bind, Except.bind, ih, isPassiveSkillJS_str]
    by_cases h : isPassiveSkill heroClass a.skill
    · simp [h, skillTypeWarning, jsToString]
    · simp [h]

theorem filterRingItems_encoded (items : List ItemRecommendation) :
    filterRingItems (items.map encodeItem) =
      .ok ((items.filter (fun i => isRingSlot i.slot)).map encodeItem) := by
  induction items with
  | nil => rfl
  | cons i rest ih =>
    simp only [List.map_cons, filterRingItems, getMemberE_encodeItem_slot, List.filter_cons]
    simp only [bind, Except.bind, ih, beq_some_str, isRingSlot_def]
    by_cases h : isRingSlot i.slot
    · simp [h]
    · simp [h]

theorem mapRingItems_encoded (items : List ItemRecommendation) :
    mapRingItems (items.map encodeItem) =
      .ok (items.map (fun i => some (.str i.item))) := by
  induction items with
  | nil => rfl
  | cons i rest ih =>
    simp only [List.map_cons, mapRingItems, getMemberE_encodeItem_item, bind, Except.bind, ih]

theorem collectRingItems_encoded (items : List ItemRecommendation) :
    collectRingItems (.arr (items.map encodeItem)) =
      .ok ((items.filter (fun i => isRingSlot i.slot)).map (fun i => some (.str i.item))) := by
  simp only [collectRingItems, filterRingItems_encoded, bind, Except.bind,
    mapRingItems_encoded]

theorem filterRingCandidates_strs (l : List String) :
    filterRingCandidates (l.map (fun n => some (.str n))) =
      .ok (l.filter jewelryMatches) := by
  induction l with
  | nil => rfl
  | cons c rest ih =>
    simp only [List.map_cons, filterRingCandidates, List.filter_cons]
    simp only [bind, Except.bind, ih]

theorem someIncludes_strs (pred : String → Bool) (l : List String) :
    someIncludes pred (l.map (fun n => some (.str n))) = .ok (l.any pred) := by
  induction l with
  | nil => rfl
  | cons c rest ih =>
    simp only [List.map_cons, someIncludes, List.any_cons]
    by_cases h : pred c <;> simp [h, ih]

/-- Evaluation of the domain validator on a recommendation whose active-skill
list and item list are well formed: no step throws, and the warning list is
the skill-type warnings, then the generic ring-conflict warning when more
than one candidate matches a jewelry set, then the hardcoded pair warning. -/
theorem validateResponse_encoded (heroClass : String) (rec : BuildRecommendation)
    (active : List SkillRecommendation) (items : List ItemRecommendation)
    (ha : rec.skillsActive = .arr (active.map encodeSkill))
    (hi : rec.gearItems = .arr (items.map encodeItem)) :
    validateResponse rec heroClass =
      .ok (((active.filter (fun a => isPassiveSkill heroClass a.skill)).map
              (fun a => skillTypeWarning a.skill)) ++
        (match checkRingSlotConflicts (ringCandidates rec.gearSets items) with
         | some cs => [ValidationWarning.mk "slot_conflict" (ringConflictMsg cs) "error"]
         | none => []) ++
        (if (ringCandidates rec.gearSets items).any endlessWalkPred &&
            (ringCandidates rec.gearSets items).any focusRestraintPred then
          [ValidationWarning.mk "slot_conflict" pairConflictMsg "error"]
         else [])) := by
  unfold validateResponse
  rw [ha, hi]
  simp only [jsIterate]
  simp only [bind, Except.bind, collectSkillWarnings_encoded, collectRingItems_encoded]
  have hcand : (rec.gearSets.map (fun s => s.name)).map (fun n => some (Json.str n)) ++
      (items.filter (fun i => isRingSlot i.slot)).map (fun i => some (Json.str i.item)) =
      (ringCandidates rec.gearSets items).map (fun n => some (Json.str n)) := by
    simp [ringCandidates, List.map_append, List.map_map]
  rw [hcand, filterRingCandidates_strs]
  simp only [bind, Except.bind, someIncludes_strs, checkRingSlotConflicts]
  by_cases hlen : 1 < ((ringCandidates rec.gearSets items).filter jewelryMatches).length
  · rw [if_pos hlen, if_pos hlen]
  · rw [if_neg hlen, if_neg hlen]

theorem two_le_length_of_mem_ne {α : Type} {a b : α} {l : List α}
    (ha : a ∈ l) (hb : b ∈ l) (hab : a ≠ b) : 2 ≤ l.length := by
  induction l with
  | nil => cases ha
  | cons c cs ih =>
    rcases List.mem_cons.mp ha with rfl | ha2
    · rcases List.mem_cons.mp hb with rfl | hb2
      · exact absurd rfl hab
      · have := List.length_pos_of_mem hb2
        simp only [List.length_cons]
        omega
    · rcases List.mem_cons.mp hb with rfl | hb2
      · have := List.length_pos_of_mem ha2
        simp only [List.length_cons]
        omega
      · have := ih ha2 hb2
        simp only [List.length_cons]
        omega

/-- A bare recommendation whose validator-relevant fields come from typed
lists, used to instantiate the validator claims. -/
def mkRec (active : List SkillRecommendation) (sets : List SetRecommendation)
    (items : List ItemRecommendation) : BuildRecommendation :=
  ⟨.arr (active.map encodeSkill), .arr [], sets, .arr (items.map encodeItem),
   ⟨⟨"", ""⟩, ⟨"", ""⟩, ⟨"", ""⟩⟩, .arr [], .str "", .arr [], .str "", none⟩

/-- C3: for every normalized recommendation and hero class, the validator
emits exactly one `skill_type_error` warning of severity `error` naming the
offending skill for each active-skill entry whose name case-insensitively
equals a passive of that class, and passive-list entries contribute none
(the skill-type warnings depend only on the active list). -/
theorem claim_C3_skill_type_errors (heroClass : String) (rec : BuildRecommendation)
    (active : List SkillRecommendation) (items : List ItemRecommendation)
    (ha : rec.skillsActive = .arr (active.map encodeSkill))
    (hi : rec.gearItems = .arr (items.map encodeItem)) :
    ∃ ws, validateResponse rec heroClass = .ok ws ∧
      ws.filter (fun (w : ValidationWarning) => w.type == "skill_type_error") =
        (active.filter (fun a => isPassiveSkill heroClass a.skill)).map
          (fun a => skillTypeWarning a.skill) := by
  refine ⟨_, validateResponse_encoded heroClass rec active items ha hi, ?_⟩
  have hA : ((active.filter (fun a => isPassiveSkill heroClass a.skill)).map
      (fun a => skillTypeWarning a.skill)).filter
        (fun (w : ValidationWarning) => w.type == "skill_type_error") =
      (active.filter (fun a => isPassiveSkill heroClass a.skill)).map
        (fun a => skillTypeWarning a.skill) := by
    apply List.filter_eq_self.mpr
    intro w hw
    rcases List.mem_map.mp hw with ⟨a, _, rfl⟩
    rfl
  have hB : ((match checkRingSlotConflicts (ringCandidates rec.gearSets items) with
      | some cs => [ValidationWarning.mk "slot_conflict" (ringConflictMsg cs) "error"]
      | none => ([] : List ValidationWarning)) : List ValidationWarning).filter
        (fun (w : ValidationWarning) => w.type == "skill_type_error") = [] := by
    rcases checkRingSlotConflicts (ringCandidates rec.gearSets items) with _ | cs <;> rfl
  have hC : ((if (ringCandidates rec.gearSets items).any endlessWalkPred &&
        (ringCandidates rec.gearSets items).any focusRestraintPred then
      [ValidationWarning.mk "slot_conflict" pairConflictMsg "error"]
      else ([] : List ValidationWarning)) : List ValidationWarning).filter
        (fun (w : ValidationWarning) => w.type == "skill_type_error") = [] := by
    split <;> rfl
  rw [List.filter_append, List.filter_append, hA, hB, hC, List.append_nil, List.append_nil]

/-- C7: whenever the candidate list holds a standing-still synonym and a
generator/spender synonym, the hardcoded pair rule emits its
`slot_conflict` error warning. -/
theorem claim_C7_named_pair_conflict (heroClass : String) (rec : BuildRecommendation)
    (active : List SkillRecommendation) (items : List ItemRecommendation)
    (ha : rec.skillsActive = .arr (active.map encodeSkill))
    (hi : rec.gearItems = .arr (items.map encodeItem))
    (hew : (ringCandidates rec.gearSets items).any endlessWalkPred = true)
    (hfr : (ringCandidates rec.gearSets items).any focusRestraintPred = true) :
    ∃ ws, validateResponse rec heroClass = .ok ws ∧
      ValidationWarning.mk "slot_conflict" pairConflictMsg "error" ∈ ws := by
  refine ⟨_, validateResponse_encoded heroClass rec active items ha hi, ?_⟩
  rw [hew, hfr]
  simp

/-- C10: with both "Endless Walk" and "Focus and Restraint" among the
candidates, the generic ring-set check fires (counting Endless Walk as a
conflicting ring set because its slot list contains the left finger) and the
hardcoded pair check fires on the same pairing, so exactly two
`slot_conflict` warnings are emitted. -/
theorem claim_C10_double_report (heroClass : String) (rec : BuildRecommendation)
    (active : List SkillRecommendation) (items : List ItemRecommendation)
    (ha : rec.skillsActive = .arr (active.map encodeSkill))
    (hi : rec.gearItems = .arr (items.map encodeItem))
    (hew : "Endless Walk" ∈ ringCandidates rec.gearSets items)
    (hfr : "Focus and Restraint" ∈ ringCandidates rec.gearSets items) :
    ∃ ws cs, validateResponse rec heroClass = .ok ws ∧
      checkRingSlotConflicts (ringCandidates rec.gearSets items) = some cs ∧
      "Endless Walk" ∈ cs ∧
      (ws.filter (fun (w : ValidationWarning) => w.type == "slot_conflict")).length = 2 := by
  have hmew : "Endless Walk" ∈ (ringCandidates rec.gearSets items).filter jewelryMatches :=
    List.mem_filter.mpr ⟨hew, by decide⟩
  have hmfr : "Focus and Restraint" ∈
      (ringCandidates rec.gearSets items).filter jewelryMatches :=
    List.mem_filter.mpr ⟨hfr, by decide⟩
  have hlen : 1 < ((ringCandidates rec.gearSets items).filter jewelryMatches).length :=
    two_le_length_of_mem_ne hmew hmfr (by decide)
  have hconf : checkRingSlotConflicts (ringCandidates rec.gearSets items) =
      some ((ringCandidates rec.gearSets items).filter jewelryMatches) := by
    unfold checkRingSlotConflicts
    rw [if_pos hlen]
  have hanyew : (ringCandidates rec.gearSets items).any endlessWalkPred = true :=
    List.any_eq_true.mpr ⟨_, hew, by decide⟩
  have hanyfr : (ringCandidates rec.gearSets items).any focusRestraintPred = true :=
    List.any_eq_true.mpr ⟨_, hfr, by decide⟩
  refine ⟨_, _, validateResponse_encoded heroClass rec active items ha hi, hconf, hmew, ?_⟩
  rw [hconf, hanyew, hanyfr]
  rw [List.filter_append, List.filter_append]
  have hA : ((active.filter (fun a => isPassiveSkill heroClass a.skill)).map
      (fun a => skillTypeWarning a.skill)).filter
        (fun (w : ValidationWarning) => w.type == "slot_conflict") = [] := by
    apply List.filter_eq_nil_iff.mpr
    intro w hw
    rcases List.mem_map.mp hw with ⟨a, _, rfl⟩
    simp [skillTypeWarning]
  rw [hA]
  rfl

/-- Whether a candidate name matches, under the matcher of
`checkRingSlotConflicts`, a jewelry set whose footprint is both ring
fingers. -/
def twoRingSlotMatch (c : String) : Bool :=
  match JEWELRY_SETS.find? (fun nm =>
      lowerStr nm.1 == lowerStr c ||
      strIncludes (lowerStr c) (lowerStr nm.1)) with
  | some nm => nm.2.slots == ["leftFinger", "rightFinger"]
  | none => false

theorem jewelryMatches_of_twoRing {c : String} (h : twoRingSlotMatch c = true) :
    jewelryMatches c = true := by
  unfold twoRingSlotMatch at h
  unfold jewelryMatches
  rcases hf : JEWELRY_SETS.find? (fun nm =>
      lowerStr nm.1 == lowerStr c ||
      strIncludes (lowerStr c) (lowerStr nm.1)) with _ | nm
  · simp only [hf] at h
    cases h
  · simp only [hf] at h ⊢
    have hs : nm.2.slots = ["leftFinger", "rightFinger"] := beq_iff_eq.mp h
    rw [hs]
    rfl

/-- C4: two distinct candidates each matching a two-ring-slot jewelry set
always produce the generic `slot_conflict` error warning naming both; a
recommendation whose only candidate is a single two-ring-slot set name
produces no `slot_conflict` warning at all. -/
theorem claim_C4_ring_conflicts :
    (∀ (heroClass : String) (rec : BuildRecommendation)
       (active : List SkillRecommendation) (items : List ItemRecommendation)
       (c₁ c₂ : String),
      rec.skillsActive = .arr (active.map encodeSkill) →
      rec.gearItems = .arr (items.map encodeItem) →
      c₁ ∈ ringCandidates rec.gearSets items →
      c₂ ∈ ringCandidates rec.gearSets items →
      c₁ ≠ c₂ → twoRingSlotMatch c₁ = true → twoRingSlotMatch c₂ = true →
      ∃ ws cs, validateResponse rec heroClass = .ok ws ∧
        checkRingSlotConflicts (ringCandidates rec.gearSets items) = some cs ∧
        c₁ ∈ cs ∧ c₂ ∈ cs ∧
        ValidationWarning.mk "slot_conflict" (ringConflictMsg cs) "error" ∈ ws) ∧
    (∀ (heroClass : String) (rec : BuildRecommendation)
       (active : List SkillRecommendation) (s : SetRecommendation),
      rec.skillsActive = .arr (active.map encodeSkill) →
      rec.gearItems = .arr ([] : List Json) →
      rec.gearSets = [s] →
      (s.name = "Focus and Restraint" ∨ s.name = "Bastions of Will") →
      ∃ ws, validateResponse rec heroClass = .ok ws ∧
        ∀ w ∈ ws, (w : ValidationWarning).type ≠ "slot_conflict") := by
  constructor
  · intro heroClass rec active items c₁ c₂ ha hi h₁ h₂ hne ht₁ ht₂
    have hm₁ : c₁ ∈ (ringCandidates rec.gearSets items).filter jewelryMatches :=
      List.mem_filter.mpr ⟨h₁, jewelryMatches_of_twoRing ht₁⟩
    have hm₂ : c₂ ∈ (ringCandidates rec.gearSets items).filter jewelryMatches :=
      List.mem_filter.mpr ⟨h₂, jewelryMatches_of_twoRing ht₂⟩
    have hlen : 1 < ((ringCandidates rec.gearSets items).filter jewelryMatches).length :=
      two_le_length_of_mem_ne hm₁ hm₂ hne
    have hconf : checkRingSlotConflicts (ringCandidates rec.gearSets items) =
        some ((ringCandidates rec.gearSets items).filter jewelryMatches) := by
      unfold checkRingSlotConflicts
      rw [if_pos hlen]
    refine ⟨_, _, validateResponse_encoded heroClass rec active items ha hi,
      hconf, hm₁, hm₂, ?_⟩
    rw [hconf]
    simp
  · intro heroClass rec active s ha hi hs hn
    have hi2 : rec.gearItems = .arr (([] : List ItemRecommendation).map encodeItem) := hi
    refine ⟨_, validateResponse_encoded heroClass rec active [] ha hi2, ?_⟩
    intro w hw
    rcases List.mem_append.mp hw with hw2 | hw3
    · rcases List.mem_append.mp hw2 with hw1 | hwB
      · rcases List.mem_map.mp hw1 with ⟨a, _, rfl⟩
        simp [skillTypeWarning]
      · exfalso
        have hcand : ringCandidates rec.gearSets [] = [s.name] := by
          rw [hs]
          rfl
        rw [hcand] at hwB
        have hle := List.length_filter_le jewelryMatches [s.name]
        simp only [List.length_cons, List.length_nil] at hle
        have hnone : checkRingSlotConflicts [s.name] = none := by
          unfold checkRingSlotConflicts
          rw [if_neg (by omega)]
        rw [hnone] at hwB
        simp at hwB
    · exfalso
      have hcand : ringCandidates rec.gearSets [] = [s.name] := by
        rw [hs]
        rfl
      rw [hcand] at hw3
      rcases hn with hn | hn <;> rw [hn] at hw3
      · rw [show (["Focus and Restraint"].any endlessWalkPred &&
            ["Focus and Restraint"].any focusRestraintPred) = false from by decide] at hw3
        simp at hw3
      · rw [show (["Bastions of Will"].any endlessWalkPred &&
            ["Bastions of Will"].any focusRestraintPred) = false from by decide] at hw3
        simp at hw3

theorem claim_C3_skill_type_errors_witness :
    ∃ ws, validateResponse (mkRec [⟨"Bone Prison", "X", "y"⟩] [] []) "necromancer" = .ok ws ∧
      ws.filter (fun (w : ValidationWarning) => w.type == "skill_type_error") =
        (([⟨"Bone Prison", "X", "y"⟩] : List SkillRecommendation).filter
          (fun a => isPassiveSkill "necromancer" a.skill)).map
            (fun a => skillTypeWarning a.skill) :=
  claim_C3_skill_type_errors "necromancer" (mkRec [⟨"Bone Prison", "X", "y"⟩] [] [])
    [⟨"Bone Prison", "X", "y"⟩] [] rfl rfl

theorem claim_C7_named_pair_conflict_witness :
    ∃ ws, validateResponse
        (mkRec [] [] [⟨"leftFinger", "The Compass Rose", ""⟩, ⟨"rightFinger", "Focus", ""⟩])
        "wizard" = .ok ws ∧
      ValidationWarning.mk "slot_conflict" pairConflictMsg "error" ∈ ws :=
  claim_C7_named_pair_conflict "wizard"
    (mkRec [] [] [⟨"leftFinger", "The Compass Rose", ""⟩, ⟨"rightFinger", "Focus", ""⟩])
    [] [⟨"leftFinger", "The Compass Rose", ""⟩, ⟨"rightFinger", "Focus", ""⟩]
    rfl rfl (by decide) (by decide)

theorem claim_C10_double_report_witness :
    ∃ ws cs, validateResponse
        (mkRec [] [⟨"Endless Walk", 2, none, ""⟩, ⟨"Focus and Restraint", 2, none, ""⟩] [])
        "necromancer" = .ok ws ∧
      checkRingSlotConflicts (ringCandidates
        (mkRec [] [⟨"Endless Walk", 2, none, ""⟩, ⟨"Focus and Restraint", 2, none, ""⟩] []).gearSets
        []) = some cs ∧
      "Endless Walk" ∈ cs ∧
      (ws.filter (fun (w : ValidationWarning) => w.type == "slot_conflict")).length = 2 :=
  claim_C10_double_report "necromancer"
    (mkRec [] [⟨"Endless Walk", 2, none, ""⟩, ⟨"Focus and Restraint", 2, none, ""⟩] [])
    [] [] rfl rfl (by decide) (by decide)

theorem claim_C4_ring_conflicts_witness :
    (∃ ws cs, validateResponse
        (mkRec [] [⟨"Focus and Restraint", 2, none, ""⟩, ⟨"Bastions of Will", 2, none, ""⟩] [])
        "wizard" = .ok ws ∧
      checkRingSlotConflicts (ringCandidates
        (mkRec [] [⟨"Focus and Restraint", 2, none, ""⟩, ⟨"Bastions of Will", 2, none, ""⟩] []).gearSets
        []) = some cs ∧
      "Focus and Restraint" ∈ cs ∧ "Bastions of Will" ∈ cs ∧
      ValidationWarning.mk "slot_conflict" (ringConflictMsg cs) "error" ∈ ws) ∧
    (∃ ws, validateResponse (mkRec [] [⟨"Focus and Restraint", 2, none, ""⟩] []) "wizard" =
        .ok ws ∧
      ∀ w ∈ ws, (w : ValidationWarning).type ≠ "slot_conflict") :=
  ⟨claim_C4_ring_conflicts.1 "wizard"
      (mkRec [] [⟨"Focus and Restraint", 2, none, ""⟩, ⟨"Bastions of Will", 2, none, ""⟩] [])
      [] [] "Focus and Restraint" "Bastions of Will" rfl rfl (by decide) (by decide)
      (by decide) (by decide) (by decide),
   claim_C4_ring_conflicts.2 "wizard" (mkRec [] [⟨"Focus and Restraint", 2, none, ""⟩] [])
      [] ⟨"Focus and Restraint", 2, none, ""⟩ rfl rfl rfl (Or.inl rfl)⟩

/-- The JSON object a well-formed supplied bonus tier parses to. -/
def encodeBonusTier (p : ℚ × String) : Json :=
  .obj [("pieces", .num p.1), ("bonus", .str p.2)]

theorem jsToString_strOrEmpty (s : String) :
    jsToString (jsOr (some (.str s)) (.str "")) = s := by
  by_cases h : s = "" <;> simp [jsOr, truthy, jsToString, h]

theorem normalizeBonusTier_encode (p : ℚ × String) :
    normalizeBonusTier (encodeBonusTier p) = .ok ⟨p.1, p.2⟩ := by
  simp [normalizeBonusTier, encodeBonusTier, getField, jsToString_strOrEmpty]

theorem mapMBonus_encode (l : List (ℚ × String)) :
    mapMBonus (l.map encodeBonusTier) =
      .ok (l.map (fun p => (⟨p.1, p.2⟩ : SetBonusTier))) := by
  induction l with
  | nil => rfl
  | cons p rest ih =>
    simp only [List.map_cons, mapMBonus, normalizeBonusTier_encode, bind, Except.bind, ih]

/-- C6 (amended only in proof bookkeeping, the claim holds): a recommended
set whose name is a key of `SET_BONUSES`, with `pieces = 6` and no supplied
non-empty bonus list, is normalized with exactly the reference tiers at or
below 6, in ascending piece order; a supplied non-empty bonus list is kept
(element-normalized) instead. -/
theorem claim_C6_set_bonus_enrichment :
    (∀ (j : Json) (n : String) (tiers : List (ℕ × String)),
      isObjectLike (some j) = true →
      getField j "name" = some (.str n) →
      getField j "pieces" = some (.num 6) →
      SET_BONUSES.find? (fun e => e.1 == n) = some (n, tiers) →
      (∀ b bs, getField j "bonuses" ≠ some (.arr (b :: bs))) →
      ∃ r bs, normalizeSetEntry j = .ok ⟨n, 6, some bs, r⟩ ∧
        (∀ (t : ℕ) (b : String),
          ((t, b) ∈ tiers ∧ (t : ℚ) ≤ 6) ↔ (⟨(t : ℚ), b⟩ : SetBonusTier) ∈ bs) ∧
        bs.Pairwise (fun x y => x.pieces ≤ y.pieces)) ∧
    (∀ (j : Json) (ws : List (ℚ × String)),
      isObjectLike (some j) = true →
      getField j "bonuses" = some (.arr (ws.map encodeBonusTier)) →
      ws ≠ [] →
      ∃ nm pc r, normalizeSetEntry j =
        .ok ⟨nm, pc, some (ws.map (fun p => (⟨p.1, p.2⟩ : SetBonusTier))), r⟩) := by
  constructor
  · intro j n tiers hobj hname hpieces hfind hnob
    have hsorted := List.sorted_insertionSort bonusLE
      ((tiers.filter (fun t => decide ((t.1 : ℚ) ≤ (6 : ℚ)))).map
        (fun t => (⟨(t.1 : ℚ), t.2⟩ : SetBonusTier)))
    have hperm := List.perm_insertionSort bonusLE
      ((tiers.filter (fun t => decide ((t.1 : ℚ) ≤ (6 : ℚ)))).map
        (fun t => (⟨(t.1 : ℚ), t.2⟩ : SetBonusTier)))
    have hiff : ∀ (t : ℕ) (b : String),
        ((t, b) ∈ tiers ∧ (t : ℚ) ≤ 6) ↔
          (⟨(t : ℚ), b⟩ : SetBonusTier) ∈ sortBonuses
            ((tiers.filter (fun t => decide ((t.1 : ℚ) ≤ (6 : ℚ)))).map
              (fun t => (⟨(t.1 : ℚ), t.2⟩ : SetBonusTier))) := by
      intro t b
      rw [sortBonuses, hperm.mem_iff]
      constructor
      · rintro ⟨hm, hle⟩
        exact List.mem_map.mpr ⟨(t, b), List.mem_filter.mpr ⟨hm, by simpa using hle⟩, rfl⟩
      · intro hmem
        rcases List.mem_map.mp hmem with ⟨⟨t2, b2⟩, hp, heq⟩
        rcases List.mem_filter.mp hp with ⟨hm, hle⟩
        have h1 : ((t2 : ℚ)) = (t : ℚ) := congrArg SetBonusTier.pieces heq
        have h2 : b2 = b := congrArg SetBonusTier.bonus heq
        have h3 : t2 = t := by exact_mod_cast h1
        subst h3
        subst h2
        exact ⟨hm, by simpa using hle⟩
    unfold normalizeSetEntry
    rw [if_pos hobj]
    rcases hb : getField j "bonuses" with _ | v
    · simp only [hname, hpieces, hb, jsToString_strOrEmpty, hfind]
      exact ⟨_, _, rfl, hiff, hsorted⟩
    · rcases v with _ | b0 | q0 | s0 | xs | kvs
      · simp only [hname, hpieces, hb, jsToString_strOrEmpty, hfind]
        exact ⟨_, _, rfl, hiff, hsorted⟩
      · simp only [hname, hpieces, hb, jsToString_strOrEmpty, hfind]
        exact ⟨_, _, rfl, hiff, hsorted⟩
      · simp only [hname, hpieces, hb, jsToString_strOrEmpty, hfind]
        exact ⟨_, _, rfl, hiff, hsorted⟩
      · simp only [hname, hpieces, hb, jsToString_strOrEmpty, hfind]
        exact ⟨_, _, rfl, hiff, hsorted⟩
      · rcases xs with _ | ⟨b1, bs1⟩
        · simp only [hname, hpieces, hb, jsToString_strOrEmpty, hfind]
          exact ⟨_, _, rfl, hiff, hsorted⟩
        · exact absurd hb (hnob b1 bs1)
      · simp only [hname, hpieces, hb, jsToString_strOrEmpty, hfind]
        exact ⟨_, _, rfl, hiff, hsorted⟩
  · intro j ws hobj hsup hne
    unfold normalizeSetEntry
    rw [if_pos hobj, hsup]
    rcases ws with _ | ⟨w, ws2⟩
    · exact absurd rfl hne
    · simp only [List.map_cons]
      rw [show ((encodeBonusTier w :: ws2.map encodeBonusTier)) =
          ((w :: ws2).map encodeBonusTier) from rfl]
      simp only [mapMBonus_encode]
      exact ⟨_, _, _, rfl⟩

theorem claim_C6_set_bonus_enrichment_witness :
    (∃ tiers, SET_BONUSES.find? (fun e => e.1 == "Grace of Inarius") =
        some ("Grace of Inarius", tiers) ∧
      ∃ r bs, normalizeSetEntry (Json.obj [("name", .str "Grace of Inarius"),
          ("pieces", .num 6), ("reason", .str "r")]) =
        .ok ⟨"Grace of Inarius", 6, some bs, r⟩ ∧
        (∀ (t : ℕ) (b : String),
          ((t, b) ∈ tiers ∧ (t : ℚ) ≤ 6) ↔ (⟨(t : ℚ), b⟩ : SetBonusTier) ∈ bs) ∧
        bs.Pairwise (fun x y => x.pieces ≤ y.pieces)) ∧
    (∃ nm pc r, normalizeSetEntry (Json.obj [("bonuses",
        .arr ([((2 : ℚ), "two bonus")].map encodeBonusTier))]) =
      .ok ⟨nm, pc, some ([((2 : ℚ), "two bonus")].map
        (fun p => (⟨p.1, p.2⟩ : SetBonusTier))), r⟩) :=
  ⟨⟨_, rfl, claim_C6_set_bonus_enrichment.1
      (Json.obj [("name", .str "Grace of Inarius"), ("pieces", .num 6),
        ("reason", .str "r")])
      "Grace of Inarius" _ rfl rfl rfl rfl
      (fun _ _ h => Option.noConfusion h)⟩,
   claim_C6_set_bonus_enrichment.2
      (Json.obj [("bonuses", .arr ([((2 : ℚ), "two bonus")].map encodeBonusTier))])
      [((2 : ℚ), "two bonus")] rfl rfl (by simp)⟩

/-- Safety of one parsed set entry: a supplied bonus array holds no `null`
element (the one value whose property read throws inside the walk). -/
def setEntrySafe (set : Json) : Bool :=
  if isObjectLike (some set) then
    match getField set "bonuses" with
    | some (.arr l) => l.all (fun b => !(b == Json.null))
    | _ => true
  else true

/-- Safety of the whole parsed document for the defaulting walk. -/
def noNullBonuses (parsed : Json) : Bool :=
  match jsOr (chainGet2 parsed "gear" "sets") (.arr []) with
  | .arr l => l.all setEntrySafe
  | _ => true

/-- Validity of a supplied rating value under `validateRating`. -/
def ratingValid (v : Option Json) : Bool :=
  match v with
  | some (.str s) =>
    s == "minor" || s == "moderate" || s == "major" || s == "transformative"
  | _ => false

/-- Whether the supplied projections object carries a valid rating string at
`damage.rating`. -/
def suppliedDamageRatingValid (p : Json) : Bool :=
  match getField p "damage" with
  | some d => if isObjectLike (some d) then ratingValid (getField d "rating") else false
  | none => false

theorem jsOr_falsy {v : Option Json} {d : Json} (h : truthyO v = false) : jsOr v d = d := by
  rcases v with _ | x
  · rfl
  · simp only [truthyO] at h
    simp [jsOr, h]

theorem validateRating_of_invalid {v : Option Json} (h : ratingValid v = false) :
    validateRating v = "minor" := by
  rcases v with _ | x
  · rfl
  · rcases x with _ | b | q | s | xs | kvs
    all_goals try rfl
    simp only [ratingValid] at h
    simp only [validateRating]
    rw [if_neg]
    intro hc
    rcases hc with hc | hc | hc | hc <;> subst hc <;> simp_all

theorem validateRating_mem (v : Option Json) :
    validateRating v ∈ (["minor", "moderate", "major", "transformative"] : List String) := by
  rcases v with _ | x
  · decide
  · rcases x with _ | b | q | s | xs | kvs
    · decide
    · simp [validateRating]
    · simp [validateRating]
    · simp only [validateRating]
      split
      · rename_i hc
        rcases hc with hc | hc | hc | hc <;> subst hc <;> decide
      · decide
    · simp [validateRating]
    · simp [validateRating]

theorem normalizeBonusTier_ok {b : Json} (h : b ≠ .null) :
    ∃ t, normalizeBonusTier b = .ok t := by
  rcases b with _ | _ | _ | _ | _ | _
  · exact absurd rfl h
  all_goals exact ⟨_, rfl⟩

theorem mapMBonus_ok {l : List Json} (h : ∀ b ∈ l, b ≠ Json.null) :
    ∃ ts, mapMBonus l = .ok ts := by
  induction l with
  | nil => exact ⟨[], rfl⟩
  | cons b rest ih =>
    obtain ⟨t, ht⟩ := normalizeBonusTier_ok (h b (List.mem_cons_self b rest))
    obtain ⟨ts, hts⟩ := ih (fun x hx => h x (List.mem_cons_of_mem b hx))
    exact ⟨t :: ts, by simp [mapMBonus, ht, hts, bind, Except.bind]⟩

theorem normalizeSetEntry_ok {set : Json} (h : setEntrySafe set = true) :
    ∃ r, normalizeSetEntry set = .ok r := by
  unfold setEntrySafe at h
  unfold normalizeSetEntry
  by_cases hobj : isObjectLike (some set)
  · rw [if_pos hobj] at h ⊢
    rcases hb : getField set "bonuses" with _ | v
    · simp only [hb]
      rcases hf : List.find? (fun e => e.1 ==
          jsToString (jsOr (getField set "name") (.str ""))) SET_BONUSES with _ | e
      · simp only [hf]
        exact ⟨_, rfl⟩
      · simp only [hf]
        exact ⟨_, rfl⟩
    · rw [hb] at h
      simp only [hb]
      rcases v with _ | b0 | q0 | s0 | xs | kvs
      · rcases hf : List.find? (fun e => e.1 ==
            jsToString (jsOr (getField set "name") (.str ""))) SET_BONUSES with _ | e
        · simp only [hf]
          exact ⟨_, rfl⟩
        · simp only [hf]
          exact ⟨_, rfl⟩
      · rcases hf : List.find? (fun e => e.1 ==
            jsToString (jsOr (getField set "name") (.str ""))) SET_BONUSES with _ | e
        · simp only [hf]
          exact ⟨_, rfl⟩
        · simp only [hf]
          exact ⟨_, rfl⟩
      · rcases hf : List.find? (fun e => e.1 ==
            jsToString (jsOr (getField set "name") (.str ""))) SET_BONUSES with _ | e
        · simp only [hf]
          exact ⟨_, rfl⟩
        · simp only [hf]
          exact ⟨_, rfl⟩
      · rcases hf : List.find? (fun e => e.1 ==
            jsToString (jsOr (getField set "name") (.str ""))) SET_BONUSES with _ | e
        · simp only [hf]
          exact ⟨_, rfl⟩
        · simp only [hf]
          exact ⟨_, rfl⟩
      · rcases xs with _ | ⟨b1, bs1⟩
        · rcases hf : List.find? (fun e => e.1 ==
              jsToString (jsOr (getField set "name") (.str ""))) SET_BONUSES with _ | e
          · simp only [hf]
            exact ⟨_, rfl⟩
          · simp only [hf]
            exact ⟨_, rfl⟩
        · have hnn : ∀ b ∈ b1 :: bs1, b ≠ Json.null := by
            intro b hbmem heq
            subst heq
            have := (List.all_eq_true.mp h) Json.null hbmem
            simp at this
          obtain ⟨ts, hts⟩ := mapMBonus_ok hnn
          refine ⟨⟨jsToString (jsOr (getField set "name") (.str "")),
            (match getField set "pieces" with | some (.num q) => q | _ => 0),
            some ts, jsToString (jsOr (getField set "reason") (.str ""))⟩, ?_⟩
          dsimp only
          rw [hts]
          rfl
      · rcases hf : List.find? (fun e => e.1 ==
            jsToString (jsOr (getField set "name") (.str ""))) SET_BONUSES with _ | e
        · simp only [hf]
          exact ⟨_, rfl⟩
        · simp only [hf]
          exact ⟨_, rfl⟩
  · rw [if_neg hobj]
    exact ⟨_, rfl⟩

theorem normalizeSetsList_ok {l : List Json} (h : ∀ s ∈ l, setEntrySafe s = true) :
    ∃ rs, normalizeSetsList l = .ok rs := by
  induction l with
  | nil => exact ⟨[], rfl⟩
  | cons s rest ih =>
    obtain ⟨r, hr⟩ := normalizeSetEntry_ok (h s (List.mem_cons_self s rest))
    obtain ⟨rs, hrs⟩ := ih (fun x hx => h x (List.mem_cons_of_mem s hx))
    exact ⟨r :: rs, by simp [normalizeSetsList, hr, hrs, bind, Except.bind]⟩

theorem normalizeSets_ok {parsed : Json} (h : noNullBonuses parsed = true) :
    ∃ rs, normalizeSets (jsOr (chainGet2 parsed "gear" "sets") (.arr [])) = .ok rs := by
  unfold noNullBonuses at h
  unfold normalizeSets
  rcases hv : jsOr (chainGet2 parsed "gear" "sets") (.arr []) with _ | _ | _ | _ | l | _
  all_goals try exact ⟨_, rfl⟩
  rw [hv] at h
  exact normalizeSetsList_ok (fun s hs => List.all_eq_true.mp h s hs)

theorem normalizeCubePowers_falsy {v : Option Json} (h : truthyO v = false) :
    normalizeCubePowers v = ⟨⟨"", ""⟩, ⟨"", ""⟩, ⟨"", ""⟩⟩ := by
  rcases v with _ | p
  · rfl
  · simp only [truthyO] at h
    simp [normalizeCubePowers, h]

theorem normalizeProjections_nonobj {v : Option Json} (h : isObjectLike v = false) :
    normalizeProjections v = none := by
  unfold normalizeProjections
  rw [if_neg]
  simp [h]

theorem normalizeStatProjection_rating_invalid {d : Option Json}
    (h : (match d with
          | some x => if isObjectLike (some x) then ratingValid (getField x "rating") else false
          | none => false) = false) :
    (normalizeStatProjection d).rating = "minor" := by
  rcases d with _ | x
  · rfl
  · by_cases hdo : isObjectLike (some x)
    · have h2 : (if isObjectLike (some x) = true then ratingValid (getField x "rating")
          else false) = false := h
      rw [if_pos hdo] at h2
      unfold normalizeStatProjection
      rw [if_pos hdo]
      rcases x with _ | _ | _ | _ | _ | _ <;>
        exact validateRating_of_invalid h2
    · unfold normalizeStatProjection
      rw [if_neg]
      · rfl
      · simp [hdo]

theorem normalizeStatProjection_rating_mem (d : Option Json) :
    (normalizeStatProjection d).rating ∈
      (["minor", "moderate", "major", "transformative"] : List String) := by
  unfold normalizeStatProjection
  by_cases hdo : isObjectLike d
  · rw [if_pos hdo]
    rcases d with _ | x
    · decide
    · exact validateRating_mem _
  · rw [if_neg hdo]
    rcases d with _ | x
    · decide
    · decide

/-- C1 as amended: whenever `JSON.parse` accepts the fence-stripped text and
the parsed document is neither the lone `null` nor carries a `null` element
inside a supplied bonus array, `parseResponse` returns without throwing; the
absent-or-falsy top-level fields take their documented defaults, the cube
powers collapse to empty string pairs, a missing or non-object projections
value becomes `undefined`, and the damage rating degrades to `minor`
whenever the supplied rating is not one of the four rating words — while
wrong-typed truthy values in the pass-through fields are kept verbatim. -/
theorem claim_C1_total_defaulting (s : String) (j : Json)
    (hp : jsonParse (extractJson s) = some j)
    (hnn : j ≠ .null)
    (hsafe : noNullBonuses j = true) :
    ∃ r, parseResponse s = .ok r ∧ buildRecFromJson j = .ok r ∧
      (truthyO (chainGet2 j "skills" "active") = false → r.skillsActive = .arr []) ∧
      (truthyO (chainGet2 j "skills" "passive") = false → r.skillsPassive = .arr []) ∧
      (truthyO (chainGet2 j "gear" "sets") = false → r.gearSets = []) ∧
      (truthyO (chainGet2 j "gear" "items") = false → r.gearItems = .arr []) ∧
      (truthyO (chainGet2 j "gear" "cubePowers") = false →
        r.cubePowers = ⟨⟨"", ""⟩, ⟨"", ""⟩, ⟨"", ""⟩⟩) ∧
      (truthyO (getField j "gems") = false → r.gems = .arr []) ∧
      (truthyO (getField j "playstyle") = false → r.playstyle = .str "") ∧
      (truthyO (getField j "farmingPriority") = false → r.farmingPriority = .arr []) ∧
      (truthyO (getField j "summary") = false → r.summary = .str "") ∧
      (truthyO (chainGet2 j "skills" "active") = true →
        r.skillsActive = jsOr (chainGet2 j "skills" "active") (.arr [])) ∧
      (truthyO (getField j "playstyle") = true →
        r.playstyle = jsOr (getField j "playstyle") (.str "")) ∧
      (isObjectLike (getField j "projectedImprovements") = false →
        r.projectedImprovements = none) ∧
      (∀ p, getField j "projectedImprovements" = some p → isObjectLike (some p) = true →
        ∃ pi, r.projectedImprovements = some pi ∧
          (suppliedDamageRatingValid p = false → pi.damage.rating = "minor") ∧
          pi.damage.rating ∈ (["minor", "moderate", "major", "transformative"] : List String)) := by
  obtain ⟨rs, hrs⟩ := normalizeSets_ok hsafe
  have hbuild : buildRecFromJson j = .ok
      ⟨jsOr (chainGet2 j "skills" "active") (.arr []),
       jsOr (chainGet2 j "skills" "passive") (.arr []),
       rs,
       jsOr (chainGet2 j "gear" "items") (.arr []),
       normalizeCubePowers (chainGet2 j "gear" "cubePowers"),
       jsOr (getField j "gems") (.arr []),
       jsOr (getField j "playstyle") (.str ""),
       jsOr (getField j "farmingPriority") (.arr []),
       jsOr (getField j "summary") (.str ""),
       normalizeProjections (getField j "projectedImprovements")⟩ := by
    unfold buildRecFromJson
    rcases j with _ | b | q | s2 | xs | kvs
    · exact absurd rfl hnn
    all_goals rw [hrs]
    all_goals rfl
  refine ⟨_, ?_, hbuild, ?_, ?_, ?_, ?_, ?_, ?_, ?_, ?_, ?_, ?_, ?_, ?_, ?_⟩
  · simp [parseResponse, hp, hbuild]
  · exact fun h => jsOr_falsy h
  · exact fun h => jsOr_falsy h
  · intro h
    show rs = []
    rw [jsOr_falsy h] at hrs
    have h2 : Except.ok (ε := Unit) ([] : List SetRecommendation) = .ok rs := hrs
    cases h2
    rfl
  · exact fun h => jsOr_falsy h
  · exact fun h => normalizeCubePowers_falsy h
  · exact fun h => jsOr_falsy h
  · exact fun h => jsOr_falsy h
  · exact fun h => jsOr_falsy h
  · exact fun h => jsOr_falsy h
  · exact fun _ => rfl
  · exact fun _ => rfl
  · exact fun h => normalizeProjections_nonobj h
  · intro p hpp hpo
    show ∃ pi, normalizeProjections (getField j "projectedImprovements") = some pi ∧ _
    rw [hpp]
    unfold normalizeProjections
    rw [if_pos hpo]
    refine ⟨_, rfl, ?_, normalizeStatProjection_rating_mem _⟩
    intro hv
    apply normalizeStatProjection_rating_invalid
    unfold suppliedDamageRatingValid at hv
    rcases hd : getField p "damage" with _ | d
    · rfl
    · rw [hd] at hv
      exact hv

instance {ε α : Type} [DecidableEq ε] [DecidableEq α] : DecidableEq (Except ε α) := fun a b =>
  match a, b with
  | .ok x, .ok y => decidable_of_iff (x = y) (by simp)
  | .error x, .error y => decidable_of_iff (x = y) (by simp)
  | .ok _, .error _ => isFalse (fun h => Except.noConfusion h)
  | .error _, .ok _ => isFalse (fun h => Except.noConfusion h)

theorem claim_C1_counterexample :
    (jsonParse (extractJson
      "\x7b\"gear\":\x7b\"sets\":[\x7b\"pieces\":2,\"bonuses\":[null]\x7d]\x7d\x7d")).isSome
      = true ∧
    parseResponse
      "\x7b\"gear\":\x7b\"sets\":[\x7b\"pieces\":2,\"bonuses\":[null]\x7d]\x7d\x7d" =
      .error parseFailMsg ∧
    parseResponse "null" = .error parseFailMsg ∧
    (parseResponse "\x7b\"skills\":\x7b\"active\":[null]\x7d\x7d").map
      (fun r => r.skillsActive) = .ok (.arr [Json.null]) ∧
    (parseResponse "\x7b\"playstyle\":42\x7d").map (fun r => r.playstyle) =
      .ok (.num 42) :=
  ⟨rfl, rfl, rfl, rfl, by decide⟩

theorem claim_C1_total_defaulting_witness :
    ∃ r, parseResponse "\x7b\x7d" = .ok r ∧ buildRecFromJson (.obj []) = .ok r ∧
      (truthyO (chainGet2 (.obj []) "skills" "active") = false → r.skillsActive = .arr []) ∧
      (truthyO (chainGet2 (.obj []) "skills" "passive") = false → r.skillsPassive = .arr []) ∧
      (truthyO (chainGet2 (.obj []) "gear" "sets") = false → r.gearSets = []) ∧
      (truthyO (chainGet2 (.obj []) "gear" "items") = false → r.gearItems = .arr []) ∧
      (truthyO (chainGet2 (.obj []) "gear" "cubePowers") = false →
        r.cubePowers = ⟨⟨"", ""⟩, ⟨"", ""⟩, ⟨"", ""⟩⟩) ∧
      (truthyO (getField (.obj []) "gems") = false → r.gems = .arr []) ∧
      (truthyO (getField (.obj []) "playstyle") = false → r.playstyle = .str "") ∧
      (truthyO (getField (.obj []) "farmingPriority") = false → r.farmingPriority = .arr []) ∧
      (truthyO (getField (.obj []) "summary") = false → r.summary = .str "") ∧
      (truthyO (chainGet2 (.obj []) "skills" "active") = true →
        r.skillsActive = jsOr (chainGet2 (.obj []) "skills" "active") (.arr [])) ∧
      (truthyO (getField (.obj []) "playstyle") = true →
        r.playstyle = jsOr (getField (.obj []) "playstyle") (.str "")) ∧
      (isObjectLike (getField (.obj []) "projectedImprovements") = false →
        r.projectedImprovements = none) ∧
      (∀ p, getField (.obj []) "projectedImprovements" = some p →
        isObjectLike (some p) = true →
        ∃ pi, r.projectedImprovements = some pi ∧
          (suppliedDamageRatingValid p = false → pi.damage.rating = "minor") ∧
          pi.damage.rating ∈ (["minor", "moderate", "major", "transformative"] : List String)) :=
  claim_C1_total_defaulting "\x7b\x7d" (.obj []) rfl (by decide) rfl

/-- C2: a producer text that is not parseable JSON even after
fence-stripping makes `parseResponse` (and the enhanced parse) fail with the
typed parse error, no partial recommendation is produced, and the store
leaves its cache untouched; when the pipeline did run, the stored
recommendation is cleared and the error recorded. -/
theorem claim_C2_parse_error_cache (s : String)
    (h : jsonParse (extractJson s) = none) :
    parseResponse s = .error parseFailMsg ∧
    parseEnhancedResponse s = .error parseFailMsg ∧
    ∀ (st : AuthStoreState) (heroId : ℕ) (heroClass : String)
      (forceRefresh useMaxrollData : Bool) (metaBuild : Option MetaBuildReference),
      (generateBuildSuggestion st heroId heroClass forceRefresh useMaxrollData
        metaBuild s).1.cache = st.cache ∧
      ((generateBuildSuggestion st heroId heroClass forceRefresh useMaxrollData
          metaBuild s).2 = true →
        (generateBuildSuggestion st heroId heroClass forceRefresh useMaxrollData
          metaBuild s).1.recommendation = none ∧
        (generateBuildSuggestion st heroId heroClass forceRefresh useMaxrollData
          metaBuild s).1.error = some parseFailMsg) := by
  have hpr : parseResponse s = .error parseFailMsg := by
    unfold parseResponse
    rw [h]
  have hper : parseEnhancedResponse s = .error parseFailMsg := by
    unfold parseEnhancedResponse
    rw [hpr]
  refine ⟨hpr, hper, ?_⟩
  intro st heroId heroClass forceRefresh useMaxrollData metaBuild
  have hrun : runAnalysisPipeline st heroId heroClass useMaxrollData metaBuild s =
      ⟨none, some parseFailMsg, st.analyzedHeroId, false, st.cache⟩ := by
    unfold runAnalysisPipeline analyzeHero analyzeHeroEnhanced
    rcases useMaxrollData with _ | _
    · rw [if_neg (by simp), hpr]
    · rw [if_pos rfl, hper]
  unfold generateBuildSuggestion
  rcases forceRefresh with _ | _
  · rcases hc : lookupCache st.cache heroId with _ | r
    · refine ⟨?_, fun _ => ⟨?_, ?_⟩⟩ <;> simp [hc, hrun]
    · refine ⟨?_, ?_⟩
      · simp [hc]
      · intro hfalse
        simp [hc] at hfalse
  · refine ⟨?_, fun _ => ⟨?_, ?_⟩⟩ <;> simp [hrun]

theorem claim_C2_parse_error_cache_witness :
    parseResponse "not json at all" = .error parseFailMsg ∧
    parseEnhancedResponse "not json at all" = .error parseFailMsg ∧
    ∀ (st : AuthStoreState) (heroId : ℕ) (heroClass : String)
      (forceRefresh useMaxrollData : Bool) (metaBuild : Option MetaBuildReference),
      (generateBuildSuggestion st heroId heroClass forceRefresh useMaxrollData
        metaBuild "not json at all").1.cache = st.cache ∧
      ((generateBuildSuggestion st heroId heroClass forceRefresh useMaxrollData
          metaBuild "not json at all").2 = true →
        (generateBuildSuggestion st heroId heroClass forceRefresh useMaxrollData
          metaBuild "not json at all").1.recommendation = none ∧
        (generateBuildSuggestion st heroId heroClass forceRefresh useMaxrollData
          metaBuild "not json at all").1.error = some parseFailMsg) :=
  claim_C2_parse_error_cache "not json at all" rfl

theorem lookupCache_insertCache_self (c : List (ℕ × AnyRec)) (id : ℕ) (r : AnyRec) :
    lookupCache (insertCache c id r) id = some r := by
  induction c with
  | nil => simp [insertCache, lookupCache]
  | cons e rest ih =>
    by_cases h : e.1 = id
    · simp [insertCache, lookupCache, h]
    · obtain ⟨k, v⟩ := e
      simp only at h
      simp only [insertCache, if_neg h]
      simp only [lookupCache, List.find?]
      rw [show ((k, v).1 == id) = false from by simp [h]]
      exact ih

/-- C8: with the force-refresh flag, the cache read is bypassed (a pipeline
run starts regardless of the cache content) and a successful run writes its
recommendation into the cache under the hero id, replacing any previous
entry; without the flag, a cached entry is returned as-is and no pipeline
run starts. -/
theorem claim_C8_force_refresh :
    (∀ (st : AuthStoreState) (heroId : ℕ) (heroClass : String)
       (useMaxrollData : Bool) (metaBuild : Option MetaBuildReference)
       (text : String) (rec : AnyRec),
      (if useMaxrollData then analyzeHeroEnhanced heroClass metaBuild text
       else analyzeHero heroClass text) = .ok rec →
      generateBuildSuggestion st heroId heroClass true useMaxrollData metaBuild text =
        (⟨some rec, none, some heroId, rec.isEnhanced,
          insertCache st.cache heroId rec⟩, true) ∧
      lookupCache (generateBuildSuggestion st heroId heroClass true useMaxrollData
        metaBuild text).1.cache heroId = some rec) ∧
    (∀ (st : AuthStoreState) (heroId : ℕ) (heroClass : String)
       (useMaxrollData : Bool) (metaBuild : Option MetaBuildReference)
       (text : String) (r : AnyRec),
      lookupCache st.cache heroId = some r →
      generateBuildSuggestion st heroId heroClass false useMaxrollData metaBuild text =
        (⟨some r, none, some heroId, r.isEnhanced, st.cache⟩, false)) := by
  constructor
  · intro st heroId heroClass useMaxrollData metaBuild text rec hres
    have hgen : generateBuildSuggestion st heroId heroClass true useMaxrollData
        metaBuild text =
        (⟨some rec, none, some heroId, rec.isEnhanced,
          insertCache st.cache heroId rec⟩, true) := by
      unfold generateBuildSuggestion runAnalysisPipeline
      rw [hres]
    refine ⟨hgen, ?_⟩
    rw [hgen]
    exact lookupCache_insertCache_self st.cache heroId rec
  · intro st heroId heroClass useMaxrollData metaBuild text r hc
    unfold generateBuildSuggestion
    rw [hc]

/-- The recommendation `parseResponse` yields for the empty JSON object. -/
def emptyParsedRec : BuildRecommendation :=
  ⟨.arr [], .arr [], [], .arr [], ⟨⟨"", ""⟩, ⟨"", ""⟩, ⟨"", ""⟩⟩, .arr [], .str "",
   .arr [], .str "", none⟩

/-- A cache entry standing in for an earlier analysis of hero 7. -/
def staleRecommendation : AnyRec :=
  .basic emptyParsedRec [⟨"unknown_item", "stale entry", "warning"⟩]

/-- A store state whose cache already holds hero 7. -/
def cachedStoreState : AuthStoreState :=
  ⟨none, none, none, false, [(7, staleRecommendation)]⟩

theorem claim_C8_force_refresh_witness :
    (generateBuildSuggestion cachedStoreState 7 "wizard" true false none "\x7b\x7d" =
      (⟨some (AnyRec.basic emptyParsedRec []), none, some 7,
        (AnyRec.basic emptyParsedRec []).isEnhanced,
        insertCache cachedStoreState.cache 7 (AnyRec.basic emptyParsedRec [])⟩, true) ∧
     lookupCache (generateBuildSuggestion cachedStoreState 7 "wizard" true false none
       "\x7b\x7d").1.cache 7 = some (AnyRec.basic emptyParsedRec [])) ∧
    generateBuildSuggestion cachedStoreState 7 "wizard" false false none "ignored text" =
      (⟨some staleRecommendation, none, some 7, staleRecommendation.isEnhanced,
        cachedStoreState.cache⟩, false) :=
  ⟨claim_C8_force_refresh.1 cachedStoreState 7 "wizard" false none "\x7b\x7d"
      (AnyRec.basic emptyParsedRec []) rfl,
   claim_C8_force_refresh.2 cachedStoreState 7 "wizard" false none "ignored text"
      staleRecommendation rfl⟩

theorem jsOr_none (d : Json) : jsOr none d = d := rfl

theorem mapStr_none : Option.map Json.str none = none := rfl

/-- C9 as amended: in enhanced mode the item-acquisition normalizer is
total; an object item with a string name has every omitted farming-method,
cost and notes field filled from the reference entry found by exact, then
case-insensitive, name lookup; a name with no entry receives the generic
fallback — greater-rift/gambling/cube-upgrade farming with a "check
Maxroll.gg" note — while the "Unknown Item" world-drop record is used only
when the step carries no item object at all. -/
theorem claim_C9_item_acquisition :
    (∀ (tier : String) (i : Json) (n : String),
      isObjectLike (some i) = true →
      getField i "itemName" = some (.str n) →
      getField i "methods" = none →
      getField i "primaryMethod" = none →
      getField i "estimatedTime" = none →
      getField i "notes" = none →
      getField i "bloodShardCost" = none →
      getField i "deathsBreathCost" = none →
      getField i "forgottenSoulCost" = none →
      (normalizeItemAcquisition (some i) tier).itemName = n ∧
      (∀ ms, (getItemAcquisition n).methods = some ms →
        (normalizeItemAcquisition (some i) tier).methods = ms.map Json.str) ∧
      (∀ pm, (getItemAcquisition n).primaryMethod = some pm → pm ≠ "" →
        (normalizeItemAcquisition (some i) tier).primaryMethod = pm) ∧
      (∀ et, (getItemAcquisition n).estimatedTime = some et → et ≠ "" →
        (normalizeItemAcquisition (some i) tier).estimatedTime = et) ∧
      (normalizeItemAcquisition (some i) tier).bloodShardCost =
        (getItemAcquisition n).bloodShardCost ∧
      (normalizeItemAcquisition (some i) tier).deathsBreathCost =
        (getItemAcquisition n).deathsBreathCost ∧
      (normalizeItemAcquisition (some i) tier).forgottenSoulCost =
        (getItemAcquisition n).forgottenSoulCost ∧
      (normalizeItemAcquisition (some i) tier).notes = (getItemAcquisition n).notes ∧
      (∀ p, ITEM_ACQUISITION.find? (fun e => e.1 == n) = some p →
        getItemAcquisition n = p.2) ∧
      (ITEM_ACQUISITION.find? (fun e => e.1 == n) = none →
        ∀ p, ITEM_ACQUISITION.find? (fun e => lowerStr e.1 == lowerStr n) = some p →
          getItemAcquisition n = p.2) ∧
      ((ITEM_ACQUISITION.find? (fun e => e.1 == n) = none ∧
        ITEM_ACQUISITION.find? (fun e => lowerStr e.1 == lowerStr n) = none) →
        (normalizeItemAcquisition (some i) tier).primaryMethod = "greater_rift" ∧
        (normalizeItemAcquisition (some i) tier).methods =
          [Json.str "greater_rift", Json.str "kadala", Json.str "cube_upgrade"] ∧
        (normalizeItemAcquisition (some i) tier).estimatedTime = "medium" ∧
        (normalizeItemAcquisition (some i) tier).notes =
          some "Check Maxroll.gg for specific farming advice.")) ∧
    (∀ (v : Option Json) (tier : String), isObjectLike v = false →
      normalizeItemAcquisition v tier = unknownItemAcquisition tier) := by
  constructor
  · intro tier i n hobj hname hm hpm het hnt hbs hdb hfs
    have hout : normalizeItemAcquisition (some i) tier =
        ⟨n,
         jsToString (jsOr (getField i "slot")
           (jsOr ((getItemAcquisition n).slot.map Json.str) (.str "unknown"))),
         (match (getItemAcquisition n).methods with
          | some ms => ms.map Json.str
          | none => [Json.str "world_drop"]),
         jsToString (jsOr ((getItemAcquisition n).primaryMethod.map Json.str)
           (.str "world_drop")),
         jsToString (jsOr ((getItemAcquisition n).estimatedTime.map Json.str)
           (.str tier)),
         (getItemAcquisition n).bloodShardCost,
         (getItemAcquisition n).deathsBreathCost,
         (getItemAcquisition n).forgottenSoulCost,
         (truthyO (getField i "bountyMaterialsRequired") ||
          match (getItemAcquisition n).bountyMaterialsRequired with
          | some b => b
          | none => false),
         (match jsOptString (getField i "craftingRecipeSource") with
          | some s => some s
          | none => (getItemAcquisition n).craftingRecipeSource),
         (match getField i "dropLocations" with
          | some (.arr l) => some (l.map jsToString)
          | _ => (getItemAcquisition n).dropLocations),
         (getItemAcquisition n).notes⟩ := by
      unfold normalizeItemAcquisition
      rw [if_pos hobj]
      rcases i with _ | _ | _ | _ | xs | kvs
      · cases hobj
      · cases hobj
      · cases hobj
      · cases hobj
      all_goals
        simp only [hname, hm, hpm, het, hnt, hbs, hdb, hfs, jsToString_strOrEmpty,
          jsOptString, validateDifficultyTier, mapStr_none, jsOr_none]
    refine ⟨by rw [hout], ?_, ?_, ?_, by rw [hout], by rw [hout], by rw [hout],
      by rw [hout], ?_, ?_, ?_⟩
    · intro ms hms
      rw [hout]
      simp only [hms]
    · intro pm hpm2 hne
      rw [hout]
      simp only [hpm2, Option.map_some]
      have : truthy (Json.str pm) = true := by
        simp [truthy, hne]
      simp [jsOr, this, jsToString]
    · intro et het2 hne
      rw [hout]
      simp only [het2, Option.map_some]
      have : truthy (Json.str et) = true := by
        simp [truthy, hne]
      simp [jsOr, this, jsToString]
    · intro p hp
      unfold getItemAcquisition
      rw [hp]
    · intro hnone p hp
      unfold getItemAcquisition
      rw [hnone, hp]
    · rintro ⟨h1, h2⟩
      have hga : getItemAcquisition n =
          ⟨none, some ["greater_rift", "kadala", "cube_upgrade"], some "greater_rift",
           some "medium", none, none, none, none, none, none,
           some "Check Maxroll.gg for specific farming advice."⟩ := by
        unfold getItemAcquisition
        rw [h1, h2]
      rw [hout, hga]
      refine ⟨?_, rfl, ?_, rfl⟩
      · simp [jsOr, truthy, jsToString]
      · simp [jsOr, truthy, jsToString]
  · intro v tier h
    unfold normalizeItemAcquisition
    rw [if_neg]
    simp [h]

theorem claim_C9_counterexample :
    (normalizeItemAcquisition
      (some (.obj [("itemName", .str "Totally Unknown Item")])) "quick").primaryMethod =
      "greater_rift" ∧
    (normalizeItemAcquisition
      (some (.obj [("itemName", .str "Totally Unknown Item")])) "quick").primaryMethod ≠
      "world_drop" ∧
    Json.str "world_drop" ∉ (normalizeItemAcquisition
      (some (.obj [("itemName", .str "Totally Unknown Item")])) "quick").methods ∧
    (normalizeItemAcquisition
      (some (.obj [("itemName", .str "Totally Unknown Item")])) "quick").notes =
      some "Check Maxroll.gg for specific farming advice." ∧
    ITEM_ACQUISITION.find? (fun e => e.1 == "Totally Unknown Item") = none ∧
    ITEM_ACQUISITION.find?
      (fun e => lowerStr e.1 == lowerStr "Totally Unknown Item") = none := by
  refine ⟨rfl, by decide, by decide, rfl, by decide, by decide⟩

theorem claim_C9_item_acquisition_witness :
    ((normalizeItemAcquisition
        (some (.obj [("itemName", .str "scythe of the cycle")])) "quick").itemName =
        "scythe of the cycle" ∧
      (∀ ms, (getItemAcquisition "scythe of the cycle").methods = some ms →
        (normalizeItemAcquisition
          (some (.obj [("itemName", .str "scythe of the cycle")])) "quick").methods =
          ms.map Json.str) ∧
      (∀ pm, (getItemAcquisition "scythe of the cycle").primaryMethod = some pm → pm ≠ "" →
        (normalizeItemAcquisition
          (some (.obj [("itemName", .str "scythe of the cycle")])) "quick").primaryMethod =
          pm) ∧
      (∀ et, (getItemAcquisition "scythe of the cycle").estimatedTime = some et → et ≠ "" →
        (normalizeItemAcquisition
          (some (.obj [("itemName", .str "scythe of the cycle")])) "quick").estimatedTime =
          et) ∧
      (normalizeItemAcquisition
        (some (.obj [("itemName", .str "scythe of the cycle")])) "quick").bloodShardCost =
        (getItemAcquisition "scythe of the cycle").bloodShardCost ∧
      (normalizeItemAcquisition
        (some (.obj [("itemName", .str "scythe of the cycle")])) "quick").deathsBreathCost =
        (getItemAcquisition "scythe of the cycle").deathsBreathCost ∧
      (normalizeItemAcquisition
        (some (.obj [("itemName", .str "scythe of the cycle")])) "quick").forgottenSoulCost =
        (getItemAcquisition "scythe of the cycle").forgottenSoulCost ∧
      (normalizeItemAcquisition
        (some (.obj [("itemName", .str "scythe of the cycle")])) "quick").notes =
        (getItemAcquisition "scythe of the cycle").notes ∧
      (∀ p, ITEM_ACQUISITION.find? (fun e => e.1 == "scythe of the cycle") = some p →
        getItemAcquisition "scythe of the cycle" = p.2) ∧
      (ITEM_ACQUISITION.find? (fun e => e.1 == "scythe of the cycle") = none →
        ∀ p, ITEM_ACQUISITION.find?
            (fun e => lowerStr e.1 == lowerStr "scythe of the cycle") = some p →
          getItemAcquisition "scythe of the cycle" = p.2) ∧
      ((ITEM_ACQUISITION.find? (fun e => e.1 == "scythe of the cycle") = none ∧
        ITEM_ACQUISITION.find?
          (fun e => lowerStr e.1 == lowerStr "scythe of the cycle") = none) →
        (normalizeItemAcquisition
          (some (.obj [("itemName", .str "scythe of the cycle")])) "quick").primaryMethod =
          "greater_rift" ∧
        (normalizeItemAcquisition
          (some (.obj [("itemName", .str "scythe of the cycle")])) "quick").methods =
          [Json.str "greater_rift", Json.str "kadala", Json.str "cube_upgrade"] ∧
        (normalizeItemAcquisition
          (some (.obj [("itemName", .str "scythe of the cycle")])) "quick").estimatedTime =
          "medium" ∧
        (normalizeItemAcquisition
          (some (.obj [("itemName", .str "scythe of the cycle")])) "quick").notes =
          some "Check Maxroll.gg for specific farming advice.")) ∧
    normalizeItemAcquisition none "quick" = unknownItemAcquisition "quick" :=
  ⟨claim_C9_item_acquisition.1 "quick" (.obj [("itemName", .str "scythe of the cycle")])
      "scythe of the cycle" rfl rfl rfl rfl rfl rfl rfl rfl rfl,
   claim_C9_item_acquisition.2 none "quick" rfl⟩

/-- The closing part of a fenced block: a newline and three backquotes. -/
def fenceTail : List Char := '\n' :: backquote :: backquote :: backquote :: []

/-- A payload wrapped in a fenced code block: an opening fence with the tag
json, a newline, the payload, a newline and the closing fence. -/
def fenceWrap (t : String) : String :=
  String.mk (backquote :: backquote :: backquote ::
    'j' :: 's' :: 'o' :: 'n' :: '\n' :: (t.data ++ fenceTail))

/-- A list beginning with three backquotes splits at once with empty prefix. -/
theorem splitTriple_fence (r : List Char) :
    splitTriple (backquote :: backquote :: backquote :: r) = some ([], r) := by
  rw [splitTriple, if_pos ⟨rfl, rfl⟩]
  rfl

/-- Dropping the head of a fence-free list keeps it fence-free. -/
theorem splitTriple_tail {c : Char} {cs : List Char}
    (h : splitTriple (c :: cs) = none) : splitTriple cs = none := by
  rw [splitTriple] at h
  by_cases hc : c = backquote ∧ cs.take 2 = [backquote, backquote]
  · rw [if_pos hc] at h
    exact absurd h (by simp)
  · rw [if_neg hc] at h
    rcases hcs : splitTriple cs with _ | ⟨p, s⟩
    · rfl
    · rw [hcs] at h
      simp at h

/-- The dropWhile of a fence-free list is fence-free. -/
theorem splitTriple_dropWhile (p : Char → Bool) :
    ∀ l : List Char, splitTriple l = none → splitTriple (l.dropWhile p) = none := by
  intro l
  induction l with
  | nil => intro h; exact h
  | cons c cs ih =>
    intro h
    rw [List.dropWhile_cons]
    by_cases hp : p c
    · rw [if_pos hp]
      exact ih (splitTriple_tail h)
    · rw [if_neg hp]
      exact h

/-- Splitting a dropWhile over an append. -/
theorem dropWhile_append_split (p : Char → Bool) :
    ∀ l r : List Char, (l ++ r).dropWhile p =
      if l.dropWhile p = [] then r.dropWhile p else l.dropWhile p ++ r := by
  intro l
  induction l with
  | nil => intro r; simp
  | cons c cs ih =>
    intro r
    rw [List.cons_append, List.dropWhile_cons, List.dropWhile_cons]
    by_cases hp : p c
    · simp only [if_pos hp]
      exact ih r
    · simp only [if_neg hp]
      rw [if_neg (by simp), List.cons_append]

/-- The head surviving a dropWhile fails the predicate. -/
theorem dropWhile_head_false {p : Char → Bool} :
    ∀ {l : List Char} {c : Char} {cs : List Char},
      l.dropWhile p = c :: cs → p c = false := by
  intro l
  induction l with
  | nil =>
    intro c cs h
    exact absurd h (by simp)
  | cons a as ih =>
    intro c cs h
    rw [List.dropWhile_cons] at h
    by_cases hp : p a
    · rw [if_pos hp] at h
      exact ih h
    · rw [if_neg hp] at h
      injection h with h1 h2
      subst h1
      simpa using hp

/-- Appending a newline and a fence to a fence-free list: the split finds
exactly the appended fence, and the prefix is the list plus the newline. -/
theorem splitTriple_append_fence :
    ∀ (l r : List Char), splitTriple l = none →
      splitTriple (l ++ '\n' :: backquote :: backquote :: backquote :: r) =
        some (l ++ ['\n'], r) := by
  intro l
  induction l with
  | nil =>
    intro r _
    rw [List.nil_append, splitTriple,
      if_neg (fun hc => absurd hc.1 (by decide)), splitTriple_fence]
    rfl
  | cons c cs ih =>
    intro r h
    have hcs : splitTriple cs = none := splitTriple_tail h
    rw [splitTriple] at h
    have hcond : ¬(c = backquote ∧ cs.take 2 = [backquote, backquote]) := by
      intro hc
      rw [if_pos hc] at h
      exact absurd h (by simp)
    have hc2 : ¬(c = backquote ∧
        (cs ++ '\n' :: backquote :: backquote :: backquote :: r).take 2
          = [backquote, backquote]) := by
      rcases cs with _ | ⟨c1, cs1⟩
      · intro hc
        have h2 : (['\n', backquote] : List Char) = [backquote, backquote] := hc.2
        exact absurd h2 (by decide)
      · rcases cs1 with _ | ⟨c2, cs2⟩
        · intro hc
          have h2 : ([c1, '\n'] : List Char) = [backquote, backquote] := hc.2
          injection h2 with h3 h4
          injection h4 with h5 h6
          exact absurd h5 (by decide)
        · intro hc
          have h2 : ([c1, c2] : List Char) = [backquote, backquote] := hc.2
          exact hcond ⟨hc.1, h2⟩
    rw [List.cons_append, splitTriple, if_neg hc2, ih r hcs]
    rfl

/-- Stripping the fence wrapper of a fence-free payload recovers the trimmed
payload, which is exactly what the unwrapped path computes. -/
theorem extractJson_fenceWrap (t : String) (h : splitTriple t.data = none) :
    extractJson (fenceWrap t) = jsTrim t := by
  have hred : extractJson (fenceWrap t) =
      match splitTriple ((t.data ++ fenceTail).dropWhile jsWhitespace) with
      | some (cap, _) => String.mk (jsTrimList cap)
      | none => jsTrim (fenceWrap t) := rfl
  rw [hred]
  rcases hu : t.data.dropWhile jsWhitespace with _ | ⟨d, ds⟩
  · have h2 : splitTriple ((t.data ++ fenceTail).dropWhile jsWhitespace) =
        some ([], []) := by
      rw [dropWhile_append_split, hu, if_pos rfl]
      rfl
    rw [h2]
    show String.mk (jsTrimList []) = jsTrim t
    unfold jsTrim
    rw [show jsTrimList t.data = [] from by
      unfold jsTrimList
      rw [hu]
      rfl]
    rfl
  · have hd : jsWhitespace d = false := dropWhile_head_false hu
    have hsts : splitTriple (d :: ds) = none := by
      have h3 := splitTriple_dropWhile jsWhitespace t.data h
      rw [hu] at h3
      exact h3
    have hidem : (d :: ds).dropWhile jsWhitespace = d :: ds := by
      rw [List.dropWhile_cons, if_neg (by simp [hd])]
    have h2 : splitTriple ((t.data ++ fenceTail).dropWhile jsWhitespace) =
        some ((d :: ds) ++ ['\n'], []) := by
      rw [dropWhile_append_split, hu, if_neg (by simp)]
      exact splitTriple_append_fence (d :: ds) [] hsts
    rw [h2]
    show String.mk (jsTrimList ((d :: ds) ++ ['\n'])) = jsTrim t
    unfold jsTrim
    have htr : jsTrimList ((d :: ds) ++ ['\n']) = jsTrimList t.data := by
      unfold jsTrimList
      rw [hu, dropWhile_append_split, hidem, if_neg (by simp),
        List.reverse_append]
      rfl
    rw [htr]

/-- C5: for every payload containing no run of three backquotes — in
particular every such JSON text — normalizing the payload wrapped in a
fenced code block returns exactly the result of normalizing it unwrapped.
The fence-free hypothesis is necessary: a JSON text may contain three
backquotes inside a string literal, and then the wrapped and unwrapped
results differ (see the counterexample). -/
theorem claim_C5_fence_tolerance (t : String) (h : splitTriple t.data = none) :
    parseResponse (fenceWrap t) = parseResponse t := by
  have h1 : extractJson (fenceWrap t) = jsTrim t := extractJson_fenceWrap t h
  have h2 : extractJson t = jsTrim t := by
    unfold extractJson
    rw [h]
  unfold parseResponse
  rw [h1, h2]

/-- The double-quote character. -/
def dquoteChar : Char := Char.ofNat 34

/-- The opening brace character. -/
def lcurly : Char := Char.ofNat 123

/-- The closing brace character. -/
def rcurly : Char := Char.ofNat 125

/-- A valid JSON text whose string value contains a run of three backquotes. -/
def fenceProbe : String :=
  String.mk (lcurly :: dquoteChar :: 'x' :: dquoteChar :: ':' :: dquoteChar ::
    backquote :: backquote :: backquote :: dquoteChar :: rcurly :: [])

/-- C5 counterexample: the JSON text with a three-backquote run inside a
string value parses on its own, yet wrapping it in a fenced block makes
normalization throw the parse error, because the lazy regex capture stops at
the inner backquote run and truncates the payload. -/
theorem claim_C5_counterexample :
    (jsonParse fenceProbe).isSome = true ∧
    parseResponse (fenceWrap fenceProbe) = .error parseFailMsg ∧
    parseResponse fenceProbe ≠ .error parseFailMsg := by
  refine ⟨rfl, rfl, ?_⟩
  decide

theorem claim_C5_fence_tolerance_witness :
    splitTriple ("\x7b\"a\": 1\x7d" : String).data = none ∧
    parseResponse (fenceWrap "\x7b\"a\": 1\x7d") = parseResponse "\x7b\"a\": 1\x7d" :=
  ⟨by decide, claim_C5_fence_tolerance "\x7b\"a\": 1\x7d" (by decide)⟩

end Dyerb
